import Mathlib

/-!
Verification of the per-user pagination state cache of the telegram-anime-bot
repository.  The embedding models, from the source:

* `utils.clamp` and `utils.chunkify_text` (src/utils.py);
* the write-through storage layer `setup_data_cache` / `get_user_data` /
  `set_user_data` over the sqlite store and the in-memory `data_cache`
  (src/storage.py);
* the pagination handlers `generate_markup`, `handle_first`, `handle_next` of
  `PaginationKeyboardHandler`, together with the `OnePage` degenerate
  pagination used for purely numeric identifiers (src/keyboards.py).

Python values that flow through the cache are modelled by `PyVal`
(int / str / None); sqlite column values by `SqlVal` (INTEGER / TEXT / NULL).
Because `set_user_data` interpolates Python values directly into the SQL
`UPDATE` text (`f"\x7bkey\x7d=\x7bchanges[key]\x7d"`), the value stored in the
database is the *SQL reading* of the interpolated text, modelled by `sqlEval`:
an int is an integer literal, the string `"NULL"` is the NULL keyword, a
single-quote-wrapped string is a TEXT literal scanned with sqlite's
doubled-quote escaping (interior `\x27\x27` pairs collapse to one quote),
and anything else is a malformed statement (the `execute` call raises).  The
in-memory cache, by contrast, receives the raw Python value.

State-changing steps also produce a trace of `Effect`s (store execute/commit,
cache writes, message deletion attempts, content fetches, message sends) so
that ordering and frame properties can be stated.
-/

/-- Single-quote character (codepoint 39). -/
def squote : Char := Char.ofNat 39

/-- Double-quote character (codepoint 34). -/
def dquote : Char := Char.ofNat 34

/-- Backslash character (codepoint 92). -/
def bslash : Char := Char.ofNat 92

/-- `utils.clamp`: `max(least, min(value, most))`.  Python integers are
unbounded, hence `Int`. -/
def clamp (value least most : Int) : Int := max least (min value most)

/-- Python range(0, stop, step) for positive step: the multiples of `step`
below `stop`. -/
def pyRangeStep (stop step : Nat) : List Nat :=
  (List.range ((stop + step - 1) / step)).map (fun i => i * step)

/-- Python slice `text[start:stop]` on a list of characters. -/
def pySliceFromTo (l : List Char) (start stop : Nat) : List Char :=
  (l.take stop).drop start

/-- Python slice `text[start:]` on a list of characters. -/
def pySliceFrom (l : List Char) (start : Nat) : List Char := l.drop start

/-- `utils.chunkify_text`: iterates `start` over `range(0, len(text),
chunk_length)` and takes `text[start:start+chunk_length]` when
`start+chunk_length < len(text)`, else `text[start:]`.  Text is modelled as a
list of characters. -/
def chunkify_text (text : List Char) (chunk_length : Nat) : List (List Char) :=
  (pyRangeStep text.length chunk_length).map (fun start =>
    if start + chunk_length < text.length then
      pySliceFromTo text start (start + chunk_length)
    else
      pySliceFrom text start)

/-- A Python value as held in the in-memory `data_cache`: the code only ever
stores ints, strings and `None` in a pagination row. -/
inductive PyVal where
  | int : Int → PyVal
  | str : String → PyVal
  | none : PyVal
deriving DecidableEq, Repr

/-- A sqlite column value: INTEGER, TEXT or NULL. -/
inductive SqlVal where
  | int : Int → SqlVal
  | text : String → SqlVal
  | null : SqlVal
deriving DecidableEq, Repr

/-- Python truthiness for the values that occur in a pagination row:
`0`, `""` and `None` are falsy. -/
def PyVal.truthy : PyVal → Bool
  | .int n => n != 0
  | .str s => s.length != 0
  | .none => false

/-- Integer content of a cached value; the handlers only apply this to values
that are ints in every reachable state (a non-int would raise in Python). -/
def PyVal.toIntD : PyVal → Int
  | .int n => n
  | _ => 0

/-- How sqlite rows are read back into Python (`SELECT` in
`setup_data_cache`): INTEGER to int, TEXT to str, NULL to None. -/
def sqlToPy : SqlVal → PyVal
  | .int n => .int n
  | .text s => .str s
  | .null => .none

/-- The columns of a keyboard table (besides the `user_id` key):
`CREATE TABLE ... (user_id INTEGER PRIMARY KEY, message_id INTEGER,
reply_id INTEGER, step INTEGER DEFAULT 1, current_page INTEGER,
last_page INTEGER, kwargs TEXT)`. -/
inductive Col where
  | message_id : Col
  | reply_id : Col
  | step : Col
  | current_page : Col
  | last_page : Col
  | kwargs : Col
deriving DecidableEq, Repr

/-- A durable row of one keyboard table. -/
abbrev StoreRow := Col → SqlVal

/-- A cached row (Python dict of column name to Python value). -/
abbrev CacheRow := Col → PyVal

/-- The row created by `INSERT OR IGNORE INTO t (user_id) VALUES (?)`:
`step` defaults to 1, every other column to NULL. -/
def defaultRow : StoreRow := fun c =>
  match c with
  | .step => SqlVal.int 1
  | _ => SqlVal.null

/-- Combined state of the sqlite table and the in-memory `data_cache`, for one
keyboard table (the claims are all per user and per category): `store u` is
the table row of user `u` (none if no row exists), `cache u` the cached row
(none if the user is not in `data_cache`). -/
structure DB where
  store : Nat → Option StoreRow
  cache : Nat → Option CacheRow

/-- Observable steps taken by the storage layer and the handlers, in order. -/
inductive Effect where
  | storeInsertDefault : Nat → Effect
  | cachePopulate : Nat → Effect
  | storeExecute : Nat → Effect
  | storeCommit : Effect
  | cacheWrite : Nat → Effect
  | deleteMessage : PyVal → Bool → Effect
  | fetch : String → Int → Effect
  | sendMessage : List (List (String × String)) → Effect
  | replyText : String → Effect
deriving DecidableEq, Repr

def updStore (db : DB) (uid : Nat) (r : StoreRow) : DB :=
  { db with store := fun u => if u = uid then some r else db.store u }

def updCache (db : DB) (uid : Nat) (r : CacheRow) : DB :=
  { db with cache := fun u => if u = uid then some r else db.cache u }

/-- `setup_data_cache` for one user: executes the idempotent
`INSERT OR IGNORE` (creating `defaultRow` when the user has no row), reads the
row back and populates the cache with its Python reading.  Called lazily by
`get_user_data` / `set_user_data` on a cache miss. -/
def ensureCache (uid : Nat) (db : DB) : DB × List Effect :=
  match db.cache uid with
  | some _ => (db, [])
  | Option.none =>
      let row := (db.store uid).getD defaultRow
      let db1 := updStore db uid row
      let db2 := updCache db1 uid (fun c => sqlToPy (row c))
      (db2, [Effect.storeInsertDefault uid, Effect.cachePopulate uid])

/-- `get_user_data`: read-through access — populates the cache from the store
on a miss, then returns the in-memory row. -/
def get_user_data (uid : Nat) (db : DB) : CacheRow × DB × List Effect :=
  let p := ensureCache uid db
  (((p.1.cache uid).getD (fun _ => PyVal.none)), p.1, p.2)

/-- Scan of the body of a sqlite single-quoted string literal (the characters
after the opening quote): a doubled quote `\x27\x27` is an escaped quote and
contributes one quote character to the content; the first undoubled quote
closes the literal.  Returns the content (with quote pairs collapsed) and the
remainder after the closing quote, or none when the literal never closes. -/
def sqlStringScan : List Char → Option (List Char × List Char)
  | [] => Option.none
  | c :: rest =>
      if c = squote then
        match rest with
        | [] => some ([], [])
        | c2 :: rest2 =>
            if c2 = squote then
              (sqlStringScan rest2).map (fun p => (squote :: p.1, p.2))
            else some ([], c2 :: rest2)
      else (sqlStringScan rest).map (fun p => (c :: p.1, p.2))

/-- SQL reading of an interpolated Python string value (the text standing to
the right of `col=` in the generated `UPDATE`): the string `"NULL"` is the
NULL keyword; a value starting with a single quote whose string literal —
with sqlite's doubled-quote escaping — spans the whole value is a TEXT
literal holding the scanned content (interior quote pairs collapsed); any
other string breaks the statement and `execute` raises.  A literal that
closes before the end of the value leaves a juxtaposed token and is likewise
modelled as an error; that is exact unless the remainder happens to form a
valid SQL continuation (an injection payload, which this program never
writes and no theorem relies on). -/
def sqlEvalStr (l : List Char) : Option SqlVal :=
  if l = "NULL".toList then some SqlVal.null
  else
    match l with
    | [] => Option.none
    | c :: rest =>
        if c = squote then
          match sqlStringScan rest with
          | some (content, []) => some (SqlVal.text (String.mk content))
          | _ => Option.none
        else Option.none

/-- SQL reading of an interpolated Python value: ints become INTEGER
literals; strings are read by `sqlEvalStr`; `None` would be interpolated as
the bare word `None` and break the statement (the code never passes it). -/
def sqlEval : PyVal → Option SqlVal
  | .int n => some (SqlVal.int n)
  | .str s => sqlEvalStr s.toList
  | .none => Option.none

/-- SQL reading of a whole change set; `Option.none` when any value breaks the
`UPDATE` statement, in which case `execute` raises and nothing is written. -/
def renderChanges : List (Col × PyVal) → Option (List (Col × SqlVal))
  | [] => some []
  | (c, v) :: rest =>
      match sqlEval v, renderChanges rest with
      | some sv, some rs => some ((c, sv) :: rs)
      | _, _ => Option.none

/-- Apply a list of column assignments to a row, later assignments winning. -/
def applyRow {α : Type} (r : Col → α) (l : List (Col × α)) : Col → α :=
  l.foldl (fun r cv => fun x => if x = cv.1 then cv.2 else r x) r

structure SetResult where
  db : DB
  effects : List Effect
  ok : Bool

/-- `set_user_data`: after the lazy cache population, build the interpolated
`UPDATE`, execute and commit it against the store, and only then copy the raw
Python values into the cached row.  `storeOk` models availability of the
store: when it is false, or when the interpolation produces a malformed
statement, `execute` raises and the function aborts with no row change. -/
def set_user_data (storeOk : Bool) (uid : Nat) (changes : List (Col × PyVal))
    (db : DB) : SetResult :=
  let p := ensureCache uid db
  match renderChanges changes, storeOk with
  | some svals, true =>
      let row := (p.1.store uid).getD defaultRow
      let db2 := updStore p.1 uid (applyRow row svals)
      let crow := (db2.cache uid).getD (fun _ => PyVal.none)
      let db3 := updCache db2 uid (applyRow crow changes)
      ⟨db3, p.2 ++ [Effect.storeExecute uid, Effect.storeCommit,
        Effect.cacheWrite uid], true⟩
  | _, _ => ⟨p.1, p.2, false⟩

/-- Python `str()` of a cached value, as used by f-string interpolation. -/
def pyShow : PyVal → String
  | .int n => toString n
  | .str s => s
  | .none => "None"

/-- The inline keyboard built at the end of `generate_markup` (buttons as
label / callback-data pairs).  `patHead` is `cls.pattern.split(":")[0]`;
the rows are
`[[Previous] if last_page != 1 else [], [Next] if current_page != last_page
else []] if last_page != 1 else []`. -/
def mkKeyboard (patHead : String) (step : PyVal) (current_page last_page : Int) :
    List (List (String × String)) :=
  let callback_data_previous := patHead ++ ":-" ++ pyShow step
  let callback_data_next := patHead ++ ":" ++ pyShow step
  if last_page ≠ 1 then
    [ if last_page ≠ 1 then [("Previous", callback_data_previous)] else [],
      if current_page ≠ last_page then [("Next", callback_data_next)] else [] ]
  else []

structure MarkupResult where
  markup : List (List (String × String))
  db : DB
  effects : List Effect
  ok : Bool

/-- `PaginationKeyboardHandler.generate_markup`: clamp the page, read the
user row, and if a previous keyboard message is recorded (truthy value),
attempt to delete it (`delOk` is the transport outcome; a BadRequest failure
is swallowed) and then — in a `finally` block, hence on success and failure
alike — clear the reference by `set_user_data(..., message_id = "NULL")`.
If that clearing write raises, the exception propagates (`ok = false`).
Finally the keyboard markup is built. -/
def generate_markup (storeOk delOk : Bool) (pattern : String)
    (current_page last_page : Int) (uid : Nat) (db : DB) : MarkupResult :=
  let current_page := clamp current_page 1 last_page
  let g := get_user_data uid db
  let previous_keyboard := g.1 Col.message_id
  let step := g.1 Col.step
  let patHead := (pattern.splitOn ":").headD ""
  if previous_keyboard.truthy then
    let r := set_user_data storeOk uid [(Col.message_id, PyVal.str "NULL")] g.2.1
    if r.ok then
      ⟨mkKeyboard patHead step current_page last_page, r.db,
        g.2.2 ++ [Effect.deleteMessage previous_keyboard delOk] ++ r.effects, true⟩
    else
      ⟨[], r.db,
        g.2.2 ++ [Effect.deleteMessage previous_keyboard delOk] ++ r.effects, false⟩
  else
    ⟨mkKeyboard patHead step current_page last_page, g.2.1, g.2.2, true⟩

/-- Python `str.isnumeric` restricted to the ASCII digits the bot deals with:
nonempty and all characters digits. -/
def pyIsNumeric (s : String) : Bool :=
  s.length != 0 && s.toList.all Char.isDigit

/-- Lowercase hex digit character for a value below 16 (`json.dumps` emits
lowercase hex in its backslash-u escapes). -/
def hexDigit (n : Nat) : Char :=
  if n < 10 then Char.ofNat (48 + n) else Char.ofNat (87 + n)

/-- The four lowercase hex digits of a codepoint below 0x10000. -/
def hex4 (n : Nat) : List Char :=
  [hexDigit (n / 4096 % 16), hexDigit (n / 256 % 16), hexDigit (n / 16 % 16),
   hexDigit (n % 16)]

/-- `json.dumps` escaping of one character (default `ensure_ascii=True`):
the double quote and the backslash get their two-character escapes; the five
control characters with short names (`\n`, `\t`, `\r`, `\b`, `\f`) get
those; every other character below 0x20 and — because of `ensure_ascii` —
every character above 0x7e gets a backslash-u escape, astral codepoints as a
surrogate pair; printable ASCII passes through unchanged. -/
def jsonEscapeChar (c : Char) : List Char :=
  if c = dquote then [bslash, dquote]
  else if c = bslash then [bslash, bslash]
  else if c = Char.ofNat 10 then [bslash, Char.ofNat 110]
  else if c = Char.ofNat 9 then [bslash, Char.ofNat 116]
  else if c = Char.ofNat 13 then [bslash, Char.ofNat 114]
  else if c = Char.ofNat 8 then [bslash, Char.ofNat 98]
  else if c = Char.ofNat 12 then [bslash, Char.ofNat 102]
  else if c.toNat < 32 then bslash :: Char.ofNat 117 :: hex4 c.toNat
  else if c.toNat < 127 then [c]
  else if c.toNat < 65536 then bslash :: Char.ofNat 117 :: hex4 c.toNat
  else
    (bslash :: Char.ofNat 117 :: hex4 (55296 + (c.toNat - 65536) / 1024)) ++
    (bslash :: Char.ofNat 117 :: hex4 (56320 + (c.toNat - 65536) % 1024))

def jsonEscape : List Char → List Char
  | [] => []
  | c :: rest => jsonEscapeChar c ++ jsonEscape rest

/-- The character prefix of the serialized kwargs object up to the opening
quote of the identifier value. -/
def jsonKeyStart : List Char := "\x7b\"identifier\": \"".toList

/-- `json.dumps(\x7b"identifier": identifier\x7d)` with the default
separators. -/
def jsonDumpsIdentifier (s : String) : String :=
  String.mk (jsonKeyStart ++ jsonEscape s.toList ++ "\"\x7d".toList)

/-- The kwargs value committed by `handle_first`:
`f"\x27\x7bdumps(\x7b'identifier': identifier\x7d)\x7d\x27"`, i.e. the JSON
text wrapped in single quotes. -/
def kwargsLiteral (s : String) : String :=
  String.mk (squote :: (jsonDumpsIdentifier s).toList ++ [squote])

/-- Python `str.strip(c)`: remove every leading and trailing occurrence of
`c`. -/
def pyStripChar (c : Char) (l : List Char) : List Char :=
  ((l.dropWhile (fun x => x = c)).reverse.dropWhile (fun x => x = c)).reverse

/-- Value of one hex digit character, upper or lower case (`json.loads`
accepts both). -/
def hexVal (c : Char) : Option Nat :=
  if 48 ≤ c.toNat ∧ c.toNat ≤ 57 then some (c.toNat - 48)
  else if 97 ≤ c.toNat ∧ c.toNat ≤ 102 then some (c.toNat - 87)
  else if 65 ≤ c.toNat ∧ c.toNat ≤ 70 then some (c.toNat - 55)
  else Option.none

/-- Read four hex digits (upper or lower case), returning their value and
the remaining input. -/
def readHex4 : List Char → Option (Nat × List Char)
  | h1 :: h2 :: h3 :: h4 :: rest =>
      match hexVal h1, hexVal h2, hexVal h3, hexVal h4 with
      | some x1, some x2, some x3, some x4 =>
          some (x1 * 4096 + x2 * 256 + x3 * 16 + x4, rest)
      | _, _, _, _ => Option.none
  | _ => Option.none

/-- Decode one escape sequence of a JSON string, given the input just after
the backslash: the named single-character escapes, a backslash-u unit with
four hex digits, or a surrogate pair of two such units.  An unknown escape
or a lone surrogate unit fails; real `loads` decodes a lone surrogate to a
lone-surrogate Python string, which is not a sequence of Unicode scalars and
hence outside the modelled string type — `dumps` output never contains
one. -/
def jsonUnescapeStep : List Char → Option (Char × List Char)
  | [] => Option.none
  | e :: rest =>
      if e = dquote ∨ e = bslash ∨ e = Char.ofNat 47 then some (e, rest)
      else if e = Char.ofNat 110 then some (Char.ofNat 10, rest)
      else if e = Char.ofNat 116 then some (Char.ofNat 9, rest)
      else if e = Char.ofNat 114 then some (Char.ofNat 13, rest)
      else if e = Char.ofNat 98 then some (Char.ofNat 8, rest)
      else if e = Char.ofNat 102 then some (Char.ofNat 12, rest)
      else if e = Char.ofNat 117 then
        match readHex4 rest with
        | some (n, rest2) =>
            if 55296 ≤ n ∧ n ≤ 56319 then
              match rest2 with
              | b2 :: u2 :: rest3 =>
                  if b2 = bslash ∧ u2 = Char.ofNat 117 then
                    match readHex4 rest3 with
                    | some (m, rest4) =>
                        if 56320 ≤ m ∧ m ≤ 57343 then
                          some (Char.ofNat (65536 + (n - 55296) * 1024 +
                            (m - 56320)), rest4)
                        else Option.none
                    | Option.none => Option.none
                  else Option.none
              | _ => Option.none
            else if 56320 ≤ n ∧ n ≤ 57343 then Option.none
            else some (Char.ofNat n, rest2)
        | Option.none => Option.none
      else Option.none

/-- Fuel-indexed scanner for the body of a JSON string: a double quote ends
the body, a backslash starts an escape decoded by `jsonUnescapeStep`, a raw
control character is rejected (as `loads` does in its default strict mode),
and every other character passes through.  Every step consumes at least one
input character, so fuel equal to the input length always suffices. -/
def parseJsonStringF : Nat → List Char → Option (List Char × List Char)
  | 0, _ => Option.none
  | _ + 1, [] => Option.none
  | fuel + 1, c :: rest =>
      if c = dquote then some ([], rest)
      else if c = bslash then
        match jsonUnescapeStep rest with
        | some (d, rest2) =>
            (parseJsonStringF fuel rest2).map (fun p => (d :: p.1, p.2))
        | Option.none => Option.none
      else if c.toNat < 32 then Option.none
      else (parseJsonStringF fuel rest).map (fun p => (c :: p.1, p.2))

/-- Parse the body of a JSON string up to its closing quote, undoing the
escapes `json.loads` accepts; returns the decoded body and the remainder
after the closing quote. -/
def parseJsonString (l : List Char) : Option (List Char × List Char) :=
  parseJsonStringF l.length l

def stripPrefixChars : List Char → List Char → Option (List Char)
  | [], l => some l
  | _ :: _, [] => Option.none
  | p :: ps, c :: cs => if c = p then stripPrefixChars ps cs else Option.none

/-- `json.loads` restricted to the exact object shape this program writes
(`\x7b"identifier": "..."\x7d`): yields the decoded identifier, or none
(`loads` raises) on anything else. -/
def parseIdentifierObj (l : List Char) : Option String :=
  match stripPrefixChars jsonKeyStart l with
  | Option.none => Option.none
  | some rest =>
      match parseJsonString rest with
      | some (s, r) => if r = "\x7d".toList then some (String.mk s) else Option.none
      | Option.none => Option.none

/-- `loads(kwargs.strip("\x27"))` applied to the cached kwargs value:
non-strings raise (`Option.none`). -/
def decodeKwargsVal : PyVal → Option String
  | .str s => parseIdentifierObj (pyStripChar squote s.toList)
  | _ => Option.none

structure HandlerResult where
  db : DB
  effects : List Effect
  ok : Bool

/-- `PaginationKeyboardHandler.handle_first` for a search handler: with a
nonempty identifier, fetch page 1 (`get_data`; a purely numeric identifier
yields the degenerate `OnePage` pagination `current = 1, last = 1`, otherwise
the collaborator reports `(apiCur, apiLast)`), build the quoted kwargs
literal, generate the markup (which may delete and clear a previous keyboard
message), send the new message (`newMsgId` is the transport-assigned id,
`srcMsgId` the id of the triggering message) and commit the full pagination
state.  `ok` is false when a storage write raised. -/
def handle_first (storeOk delOk : Bool) (pattern : String) (identifier : String)
    (apiCur apiLast : Int) (srcMsgId newMsgId : Int) (uid : Nat) (db : DB) :
    HandlerResult :=
  if identifier.length = 0 then ⟨db, [], true⟩
  else
    let cur : Int := if pyIsNumeric identifier then 1 else apiCur
    let last : Int := if pyIsNumeric identifier then 1 else apiLast
    let kwargs := kwargsLiteral identifier
    let m := generate_markup storeOk delOk pattern cur last uid db
    if m.ok then
      let r := set_user_data storeOk uid
        [(Col.message_id, PyVal.int newMsgId), (Col.reply_id, PyVal.int srcMsgId),
         (Col.current_page, PyVal.int cur), (Col.last_page, PyVal.int last),
         (Col.kwargs, PyVal.str kwargs)] m.db
      ⟨r.db, Effect.fetch identifier 1 :: m.effects ++ [Effect.sendMessage m.markup]
        ++ r.effects, r.ok⟩
    else
      ⟨m.db, Effect.fetch identifier 1 :: m.effects, false⟩

/-- `PaginationKeyboardHandler.handle_next`: read the user row; if
`current_page` is falsy (None after a restart with an empty store), reply
with an instruction to rerun the command and stop; compute the clamped
target page and stop if it equals the current page; otherwise decode the
stored kwargs (a decode failure raises: `ok = false`), fetch the target page,
regenerate the markup (deleting and clearing the previous keyboard message),
send, and commit the new `message_id` and `current_page`. -/
def handle_next (storeOk delOk : Bool) (pattern : String) (step : Int)
    (newMsgId : Int) (uid : Nat) (db : DB) : HandlerResult :=
  let g := get_user_data uid db
  if (g.1 Col.current_page).truthy = false then
    ⟨g.2.1, g.2.2 ++ [Effect.replyText "Please run the command again"], true⟩
  else
    let cur := (g.1 Col.current_page).toIntD
    let last := (g.1 Col.last_page).toIntD
    let next_page := clamp (cur + step) 1 last
    if next_page = cur then ⟨g.2.1, g.2.2, true⟩
    else
      match decodeKwargsVal (g.1 Col.kwargs) with
      | Option.none => ⟨g.2.1, g.2.2, false⟩
      | some identifier =>
          let m := generate_markup storeOk delOk pattern next_page last uid g.2.1
          if m.ok then
            let r := set_user_data storeOk uid
              [(Col.message_id, PyVal.int newMsgId),
               (Col.current_page, PyVal.int next_page)] m.db
            ⟨r.db, g.2.2 ++ [Effect.fetch identifier next_page] ++ m.effects
              ++ [Effect.sendMessage m.markup] ++ r.effects, r.ok⟩
          else
            ⟨m.db, g.2.2 ++ [Effect.fetch identifier next_page] ++ m.effects, false⟩

/-- A sequence of navigation clicks: each element carries the signed step of
the callback payload and the transport-assigned id of the message a
successful navigation would send. -/
def navigate (storeOk delOk : Bool) (pattern : String) (uid : Nat) :
    List (Int × Int) → DB → DB
  | [], db => db
  | c :: rest, db =>
      navigate storeOk delOk pattern uid rest
        (handle_next storeOk delOk pattern c.1 c.2 uid db).db

/-- The committed-state invariant of a user's pagination row: the store row
exists and holds integer pages with `1 ≤ current_page ≤ last_page`, and the
cached row (when present) agrees with the store on both page columns. -/
def pagesInv (uid : Nat) (db : DB) : Prop :=
  ∃ c l : Int, 1 ≤ c ∧ c ≤ l ∧
    (∃ r, db.store uid = some r ∧ r Col.current_page = SqlVal.int c ∧
      r Col.last_page = SqlVal.int l) ∧
    (∀ cr, db.cache uid = some cr → cr Col.current_page = PyVal.int c ∧
      cr Col.last_page = PyVal.int l)

lemma clamp_mem (x least most : Int) (h : least ≤ most) :
    least ≤ clamp x least most ∧ clamp x least most ≤ most := by
  unfold clamp
  constructor
  · exact le_max_left _ _
  · exact max_le (by exact h) (min_le_right _ _)

/-- C2: for every `lastPage ≥ 1`, every step, and every `currentPage` in
`[1, lastPage]`, the clamped navigation target
`clamp(currentPage + step, 1, lastPage)` lies in `[1, lastPage]`. -/
theorem clamp_next_page_in_bounds (currentPage lastPage step : Int)
    (hlast : 1 ≤ lastPage) (hc1 : 1 ≤ currentPage) (hc2 : currentPage ≤ lastPage) :
    1 ≤ clamp (currentPage + step) 1 lastPage ∧
      clamp (currentPage + step) 1 lastPage ≤ lastPage :=
  clamp_mem _ _ _ hlast

theorem clamp_next_page_in_bounds_witness :
    1 ≤ clamp (3 + (-7)) 1 5 ∧ clamp (3 + (-7)) 1 5 ≤ 5 :=
  clamp_next_page_in_bounds 3 5 (-7) (by decide) (by decide) (by decide)

/-- The body applied to each start index by `chunkify_text`. -/
def chunkBody (text : List Char) (k start : Nat) : List Char :=
  if start + k < text.length then pySliceFromTo text start (start + k)
  else pySliceFrom text start

lemma chunkify_text_eq_map (t : List Char) (k : Nat) :
    chunkify_text t k = (pyRangeStep t.length k).map (chunkBody t k) := rfl

lemma chunkBody_shift (t : List Char) (k s : Nat) :
    chunkBody t k (s + k) = chunkBody (t.drop k) k s := by
  unfold chunkBody pySliceFromTo pySliceFrom
  have hlen : (t.drop k).length = t.length - k := List.length_drop k t
  have hcond : (s + k + k < t.length) ↔ (s + k < (t.drop k).length) := by
    rw [hlen]; omega
  by_cases h : s + k + k < t.length
  · rw [if_pos h, if_pos (hcond.mp h)]
    rw [List.take_drop, List.drop_drop]
    rw [show k + (s + k) = s + k + k by omega, Nat.add_comm s k]
  · rw [if_neg h, if_neg (fun hc => h (hcond.mpr hc))]
    rw [List.drop_drop, Nat.add_comm k s]

lemma pyRangeStep_zero (k : Nat) (hk : 0 < k) : pyRangeStep 0 k = [] := by
  unfold pyRangeStep
  have : (0 + k - 1) / k = 0 := Nat.div_eq_of_lt (by omega)
  rw [this]
  rfl

lemma pyRangeStep_peel (len k : Nat) (hk : 0 < k) (hlen : 0 < len) :
    pyRangeStep len k = 0 :: (pyRangeStep (len - k) k).map (fun s => s + k) := by
  unfold pyRangeStep
  have h1 : (len + k - 1) / k = (len - 1) / k + 1 := by
    have : len + k - 1 = (len - 1) + k := by omega
    rw [this, Nat.add_div_right _ hk]
  have h2 : (len - k + k - 1) / k = (len - 1) / k := by
    by_cases h : k ≤ len
    · have : len - k + k - 1 = len - 1 := by omega
      rw [this]
    · have e1 : len - k = 0 := by omega
      rw [e1]
      have e2 : (0 + k - 1) / k = 0 := Nat.div_eq_of_lt (by omega)
      rw [e2]
      have e3 : (len - 1) / k = 0 := Nat.div_eq_of_lt (by omega)
      rw [e3]
  rw [h1, h2, List.range_succ_eq_map]
  simp only [List.map_cons, List.map_map]
  congr 1
  · simp
  · refine List.map_congr_left ?_
    intro i _
    simp [Function.comp, Nat.succ_mul]

lemma chunkify_text_peel (t : List Char) (k : Nat) (hk : 0 < k) (ht : t ≠ []) :
    chunkify_text t k = t.take k :: chunkify_text (t.drop k) k := by
  have hlen : 0 < t.length := List.length_pos.mpr ht
  rw [chunkify_text_eq_map, chunkify_text_eq_map, pyRangeStep_peel _ _ hk hlen]
  rw [List.map_cons, List.map_map, List.length_drop]
  have hhead : chunkBody t k 0 = t.take k := by
    unfold chunkBody pySliceFromTo pySliceFrom
    by_cases h : 0 + k < t.length
    · rw [if_pos h]
      simp
    · rw [if_neg h]
      rw [List.take_of_length_le (by omega), List.drop_zero]
  rw [hhead]
  congr 1
  refine List.map_congr_left ?_
  intro s _
  simp only [Function.comp_apply]
  exact chunkBody_shift t k s

lemma chunkify_text_nil (k : Nat) (hk : 0 < k) : chunkify_text [] k = [] := by
  rw [chunkify_text_eq_map]
  simp only [List.length_nil]
  rw [pyRangeStep_zero _ hk]
  rfl

lemma chunkify_text_join_and_le (k : Nat) (hk : 0 < k) :
    ∀ n (t : List Char), t.length ≤ n →
      (chunkify_text t k).flatten = t ∧
        ∀ c ∈ chunkify_text t k, c.length ≤ k := by
  intro n
  induction n with
  | zero =>
      intro t ht
      have : t = [] := List.eq_nil_of_length_eq_zero (by omega)
      subst this
      rw [chunkify_text_nil _ hk]
      exact ⟨rfl, by intro c hc; simp at hc⟩
  | succ m ih =>
      intro t ht
      by_cases he : t = []
      · subst he
        rw [chunkify_text_nil _ hk]
        exact ⟨rfl, by intro c hc; simp at hc⟩
      · have hlen : 0 < t.length := List.length_pos.mpr he
        have hdrop : (t.drop k).length ≤ m := by
          rw [List.length_drop]; omega
        obtain ⟨ihj, ihl⟩ := ih (t.drop k) hdrop
        rw [chunkify_text_peel t k hk he]
        constructor
        · rw [List.flatten_cons, ihj, List.take_append_drop]
        · intro c hc
          rcases List.mem_cons.mp hc with h | h
          · subst h
            simp
          · exact ihl c h

/-- C10: for every text and every positive chunk length, the chunks returned
by `chunkify_text` concatenate, in order, back to the text, and every chunk
has length at most the chunk length. -/
theorem chunkify_text_concat_and_length (text : List Char) (chunk_length : Nat)
    (hk : 0 < chunk_length) :
    (chunkify_text text chunk_length).flatten = text ∧
      ∀ c ∈ chunkify_text text chunk_length, c.length ≤ chunk_length :=
  chunkify_text_join_and_le chunk_length hk text.length text le_rfl

theorem chunkify_text_concat_and_length_witness :
    (chunkify_text ("abcdefg".toList) 3).flatten = "abcdefg".toList ∧
      ∀ c ∈ chunkify_text ("abcdefg".toList) 3, c.length ≤ 3 :=
  chunkify_text_concat_and_length ("abcdefg".toList) 3 (by decide)

lemma applyRow_nil {α : Type} (r : Col → α) : applyRow r [] = r := rfl

lemma applyRow_cons {α : Type} (r : Col → α) (c : Col) (v : α)
    (t : List (Col × α)) :
    applyRow r ((c, v) :: t) = applyRow (fun x => if x = c then v else r x) t :=
  rfl

lemma applyRow_not_mem {α : Type} (r : Col → α) (l : List (Col × α)) (x : Col)
    (h : ∀ p ∈ l, p.1 ≠ x) : applyRow r l x = r x := by
  induction l generalizing r with
  | nil => rfl
  | cons p t ih =>
      obtain ⟨c, v⟩ := p
      rw [applyRow_cons]
      rw [ih _ (fun q hq => h q (List.mem_cons_of_mem _ hq))]
      have hne : c ≠ x := h (c, v) (List.mem_cons_self _ _)
      rw [if_neg (fun hxc => hne hxc.symm)]

/-- The pointwise relation between a Python change set and its SQL reading. -/
def RendersTo (a : Col × PyVal) (b : Col × SqlVal) : Prop :=
  a.1 = b.1 ∧ sqlEval a.2 = some b.2

lemma renderChanges_rel :
    ∀ {l : List (Col × PyVal)} {s : List (Col × SqlVal)},
      renderChanges l = some s → List.Forall₂ RendersTo l s := by
  intro l
  induction l with
  | nil =>
      intro s hs
      simp only [renderChanges] at hs
      cases hs
      exact List.Forall₂.nil
  | cons p t ih =>
      intro s hs
      obtain ⟨c, v⟩ := p
      simp only [renderChanges] at hs
      rcases hv : sqlEval v with _ | sv
      · rw [hv] at hs
        cases hs
      · rw [hv] at hs
        rcases ht : renderChanges t with _ | rs
        · rw [ht] at hs
          cases hs
        · rw [ht] at hs
          cases hs
          exact List.Forall₂.cons ⟨rfl, hv⟩ (ih ht)

lemma rendered_cols_eq {l : List (Col × PyVal)} {s : List (Col × SqlVal)}
    (h : List.Forall₂ RendersTo l s) (x : Col) (hx : ∀ p ∈ l, p.1 ≠ x) :
    ∀ q ∈ s, q.1 ≠ x := by
  induction h with
  | nil => intro q hq; simp at hq
  | cons hab _ ih =>
      intro q hq
      rcases List.mem_cons.mp hq with h | h
      · subst h
        rw [← hab.1]
        exact hx _ (List.mem_cons_self _ _)
      · exact ih (fun p hp => hx p (List.mem_cons_of_mem _ hp)) q h

/-- The value of a column in a user's durable row, if the row exists. -/
def storeCol (db : DB) (uid : Nat) (c : Col) : Option SqlVal :=
  (db.store uid).map (fun r => r c)

/-- The value of a column in a user's cached row, if the user is cached. -/
def cacheCol (db : DB) (uid : Nat) (c : Col) : Option PyVal :=
  (db.cache uid).map (fun r => r c)

lemma ensureCache_of_cached {uid : Nat} {db : DB} {cr : CacheRow}
    (hc : db.cache uid = some cr) : ensureCache uid db = (db, []) := by
  unfold ensureCache
  rw [hc]

lemma get_user_data_of_cached {uid : Nat} {db : DB} {cr : CacheRow}
    (hc : db.cache uid = some cr) : get_user_data uid db = (cr, db, []) := by
  unfold get_user_data
  rw [ensureCache_of_cached hc]
  simp [hc]

lemma set_user_data_of_cached {uid : Nat} {changes : List (Col × PyVal)}
    {db : DB} {cr : CacheRow} {svals : List (Col × SqlVal)}
    (hc : db.cache uid = some cr) (hr : renderChanges changes = some svals) :
    set_user_data true uid changes db =
      ⟨updCache (updStore db uid
          (applyRow ((db.store uid).getD defaultRow) svals)) uid
          (applyRow cr changes),
        [Effect.storeExecute uid, Effect.storeCommit, Effect.cacheWrite uid],
        true⟩ := by
  unfold set_user_data
  rw [ensureCache_of_cached hc, hr]
  have hcache : (updStore db uid
      (applyRow ((db.store uid).getD defaultRow) svals)).cache uid = some cr := hc
  simp [hcache]

lemma set_user_data_fail_of_cached {storeOk : Bool} {uid : Nat}
    {changes : List (Col × PyVal)} {db : DB} {cr : CacheRow}
    (hc : db.cache uid = some cr)
    (h : renderChanges changes = Option.none ∨ storeOk = false) :
    set_user_data storeOk uid changes db = ⟨db, [], false⟩ := by
  unfold set_user_data
  rw [ensureCache_of_cached hc]
  rcases h with h | h
  · rw [h]
  · subst h
    rcases renderChanges changes with _ | svals
    · rfl
    · rfl

/-- C9: `set_user_data` executes and commits the `UPDATE` against the store
strictly before mutating the cached row (the effect trace on success is
execute, commit, then cache write), and fails atomically: when the store
write raises — unavailability or a malformed interpolated statement — the
cached row and the durable row are both left exactly as they were. -/
theorem set_user_data_store_first_and_atomic_failure
    (uid : Nat) (changes : List (Col × PyVal)) (db : DB) (cr : CacheRow)
    (hc : db.cache uid = some cr) :
    (∀ storeOk : Bool, (set_user_data storeOk uid changes db).ok = false →
        (set_user_data storeOk uid changes db).db.cache uid = some cr ∧
        (set_user_data storeOk uid changes db).db.store uid = db.store uid) ∧
    (∀ storeOk : Bool, (set_user_data storeOk uid changes db).ok = true →
        (set_user_data storeOk uid changes db).effects =
          [Effect.storeExecute uid, Effect.storeCommit, Effect.cacheWrite uid]) := by
  constructor
  · intro storeOk hfail
    cases storeOk with
    | false =>
        rw [set_user_data_fail_of_cached hc (Or.inr rfl)]
        exact ⟨hc, rfl⟩
    | true =>
        rcases hr : renderChanges changes with _ | svals
        · rw [set_user_data_fail_of_cached hc (Or.inl hr)]
          exact ⟨hc, rfl⟩
        · rw [set_user_data_of_cached hc hr] at hfail
          cases hfail
  · intro storeOk hok
    cases storeOk with
    | false =>
        rw [set_user_data_fail_of_cached hc (Or.inr rfl)] at hok
        cases hok
    | true =>
        rcases hr : renderChanges changes with _ | svals
        · rw [set_user_data_fail_of_cached hc (Or.inl hr)] at hok
          cases hok
        · rw [set_user_data_of_cached hc hr]

/-- A concrete committed row: a session on page 1 of 3 with a displayed
keyboard message (id 5) and source message (id 7). -/
def rowA : StoreRow := fun c =>
  match c with
  | .message_id => SqlVal.int 5
  | .reply_id => SqlVal.int 7
  | .step => SqlVal.int 1
  | .current_page => SqlVal.int 1
  | .last_page => SqlVal.int 3
  | .kwargs => SqlVal.null

/-- The cache image of `rowA`. -/
def cacheA : CacheRow := fun c => sqlToPy (rowA c)

/-- A one-user database whose cache agrees with its store. -/
def dbA : DB :=
  ⟨fun u => if u = 0 then some rowA else Option.none,
   fun u => if u = 0 then some cacheA else Option.none⟩

theorem set_user_data_store_first_and_atomic_failure_witness :
    dbA.cache 0 = some cacheA ∧
    ((set_user_data false 0 [(Col.current_page, PyVal.int 2)] dbA).ok = false ∧
      (set_user_data false 0 [(Col.current_page, PyVal.int 2)] dbA).db.cache 0 =
        some cacheA) ∧
    (set_user_data true 0 [(Col.current_page, PyVal.int 2)] dbA).effects =
      [Effect.storeExecute 0, Effect.storeCommit, Effect.cacheWrite 0] := by
  refine ⟨rfl, ⟨rfl, ?_⟩, ?_⟩
  · exact ((set_user_data_store_first_and_atomic_failure 0
      [(Col.current_page, PyVal.int 2)] dbA cacheA rfl).1 false rfl).1
  · exact (set_user_data_store_first_and_atomic_failure 0
      [(Col.current_page, PyVal.int 2)] dbA cacheA rfl).2 true rfl

/-- C4 counterexample: clearing the displayed-message reference by
`set_user_data(..., message_id = "NULL")` succeeds, yet afterwards the cache
holds the Python string `"NULL"` for `message_id` while the database row
holds SQL NULL — the two representations diverge (the cached value is not
the Python reading of the stored one; it is even truthy, so the next
`generate_markup` treats the string `"NULL"` as an existing message). -/
theorem cache_store_divergence_on_null_clear :
    (set_user_data true 0 [(Col.message_id, PyVal.str "NULL")] dbA).ok = true ∧
    storeCol (set_user_data true 0 [(Col.message_id, PyVal.str "NULL")] dbA).db
      0 Col.message_id = some SqlVal.null ∧
    cacheCol (set_user_data true 0 [(Col.message_id, PyVal.str "NULL")] dbA).db
      0 Col.message_id = some (PyVal.str "NULL") ∧
    PyVal.str "NULL" ≠ sqlToPy SqlVal.null := by
  refine ⟨rfl, rfl, rfl, by decide⟩

/-- The cache agrees with the store for a user: whenever the user is cached,
the durable row exists and the cached row is its Python reading. -/
def rowConsistent (uid : Nat) (db : DB) : Prop :=
  ∀ cr, db.cache uid = some cr →
    ∃ sr, db.store uid = some sr ∧ ∀ c, cr c = sqlToPy (sr c)

lemma applyRow_consistent :
    ∀ {l : List (Col × PyVal)} {s : List (Col × SqlVal)},
      List.Forall₂ RendersTo l s →
      (∀ p ∈ l, ∃ n : Int, p.2 = PyVal.int n) →
      ∀ (sr : StoreRow) (cr : CacheRow), (∀ c, cr c = sqlToPy (sr c)) →
      ∀ c, applyRow cr l c = sqlToPy (applyRow sr s c) := by
  intro l s h
  induction h with
  | nil =>
      intro _ sr cr hbase c
      exact hbase c
  | @cons a b l₁ l₂ hab htail ih =>
      intro hint sr cr hbase c
      obtain ⟨ca, va⟩ := a
      obtain ⟨cb, vb⟩ := b
      obtain ⟨heq, hev⟩ := hab
      obtain ⟨n, hn⟩ := hint (ca, va) (List.mem_cons_self _ _)
      simp only at heq hn
      subst heq
      subst hn
      have hb : vb = SqlVal.int n := by
        simp only [sqlEval] at hev
        exact (Option.some_injective _ hev).symm
      subst hb
      rw [applyRow_cons, applyRow_cons]
      refine ih (fun p hp => hint p (List.mem_cons_of_mem _ hp)) _ _ ?_ c
      intro x
      by_cases hx : x = ca
      · simp [hx]
        rfl
      · simp [hx]
        exact hbase x

lemma set_user_data_true_some (uid : Nat) (changes : List (Col × PyVal))
    (db : DB) (svals : List (Col × SqlVal))
    (hr : renderChanges changes = some svals) :
    set_user_data true uid changes db =
      ⟨updCache (updStore (ensureCache uid db).1 uid
          (applyRow (((ensureCache uid db).1.store uid).getD defaultRow) svals))
          uid
          (applyRow (((ensureCache uid db).1.cache uid).getD
            (fun _ => PyVal.none)) changes),
        (ensureCache uid db).2 ++ [Effect.storeExecute uid, Effect.storeCommit,
          Effect.cacheWrite uid],
        true⟩ := by
  unfold set_user_data
  rw [hr]
  rfl

lemma set_user_data_noRender (storeOk : Bool) (uid : Nat)
    (changes : List (Col × PyVal)) (db : DB)
    (h : renderChanges changes = Option.none) :
    set_user_data storeOk uid changes db =
      ⟨(ensureCache uid db).1, (ensureCache uid db).2, false⟩ := by
  unfold set_user_data
  rw [h]

lemma set_user_data_falseOk (uid : Nat) (changes : List (Col × PyVal))
    (db : DB) :
    set_user_data false uid changes db =
      ⟨(ensureCache uid db).1, (ensureCache uid db).2, false⟩ := by
  unfold set_user_data
  rcases renderChanges changes with _ | svals
  · rfl
  · rfl

lemma ensureCache_of_miss {uid : Nat} {db : DB}
    (hc : db.cache uid = Option.none) :
    ensureCache uid db =
      (updCache (updStore db uid ((db.store uid).getD defaultRow)) uid
        (fun c => sqlToPy (((db.store uid).getD defaultRow) c)),
       [Effect.storeInsertDefault uid, Effect.cachePopulate uid]) := by
  unfold ensureCache
  rw [hc]

lemma updCache_cache_self (db : DB) (uid : Nat) (r : CacheRow) :
    (updCache db uid r).cache uid = some r := by
  simp [updCache]

lemma updStore_store_self (db : DB) (uid : Nat) (r : StoreRow) :
    (updStore db uid r).store uid = some r := by
  simp [updStore]

lemma ensureCache_cache_some (uid : Nat) (db : DB) :
    ∃ cr, (ensureCache uid db).1.cache uid = some cr := by
  rcases h : db.cache uid with _ | cr
  · rw [ensureCache_of_miss h]
    exact ⟨_, updCache_cache_self _ _ _⟩
  · rw [ensureCache_of_cached h]
    exact ⟨cr, h⟩

lemma ensureCache_consistent (uid : Nat) (db : DB) (h : rowConsistent uid db) :
    rowConsistent uid (ensureCache uid db).1 := by
  rcases hc : db.cache uid with _ | cr
  · rw [ensureCache_of_miss hc]
    intro cr2 hcr2
    rw [updCache_cache_self] at hcr2
    obtain rfl := Option.some.inj hcr2
    refine ⟨(db.store uid).getD defaultRow, ?_, fun c => rfl⟩
    have : (updCache (updStore db uid ((db.store uid).getD defaultRow)) uid
        (fun c => sqlToPy (((db.store uid).getD defaultRow) c))).store uid =
        (updStore db uid ((db.store uid).getD defaultRow)).store uid := rfl
    rw [this, updStore_store_self]
  · rw [ensureCache_of_cached hc]
    exact h

/-- C4 (amended): the cache stays the exact Python reading of the durable row
across `set_user_data` whenever every written value is an integer (which is
the case for all fields except the `"NULL"` clearing of `message_id` and the
quote-wrapped `kwargs` literal, whose representations deliberately
diverge). -/
theorem cache_store_consistency_for_int_updates (storeOk : Bool) (uid : Nat)
    (changes : List (Col × PyVal)) (db : DB)
    (hint : ∀ p ∈ changes, ∃ n : Int, p.2 = PyVal.int n)
    (h : rowConsistent uid db) :
    rowConsistent uid (set_user_data storeOk uid changes db).db := by
  have hp := ensureCache_consistent uid db h
  rcases hr : renderChanges changes with _ | svals
  · rw [set_user_data_noRender storeOk uid changes db hr]
    exact hp
  · cases storeOk with
    | false =>
        rw [set_user_data_falseOk]
        exact hp
    | true =>
        rw [set_user_data_true_some uid changes db svals hr]
        intro cr hcr
        obtain ⟨cr0, hcr0⟩ := ensureCache_cache_some uid db
        simp only [updCache, updStore, if_pos rfl] at hcr
        cases hcr
        obtain ⟨sr0, hsr0, hbase⟩ := hp cr0 hcr0
        refine ⟨applyRow (((ensureCache uid db).1.store uid).getD defaultRow)
          svals, by simp [updCache, updStore], ?_⟩
        rw [hcr0, hsr0]
        exact applyRow_consistent (renderChanges_rel hr) hint sr0 cr0 hbase

theorem cache_store_consistency_for_int_updates_witness :
    (∀ p ∈ [(Col.current_page, PyVal.int 2), (Col.message_id, PyVal.int 11)],
      ∃ n : Int, p.2 = PyVal.int n) ∧
    rowConsistent 0 (set_user_data true 0
      [(Col.current_page, PyVal.int 2), (Col.message_id, PyVal.int 11)] dbA).db := by
  have hint : ∀ p ∈ [(Col.current_page, PyVal.int 2),
      (Col.message_id, PyVal.int 11)], ∃ n : Int, p.2 = PyVal.int n := by
    intro p hp
    simp only [List.mem_cons, List.not_mem_nil, or_false] at hp
    rcases hp with h | h
    · exact ⟨2, by rw [h]⟩
    · exact ⟨11, by rw [h]⟩
  have hcons : rowConsistent 0 dbA := by
    intro cr hcr
    obtain rfl := Option.some.inj hcr
    exact ⟨rowA, rfl, fun c => rfl⟩
  exact ⟨hint, cache_store_consistency_for_int_updates true 0 _ dbA hint hcons⟩

lemma renderChanges_clear :
    renderChanges [(Col.message_id, PyVal.str "NULL")] =
      some [(Col.message_id, SqlVal.null)] := rfl

lemma applyRow_single {α : Type} (r : Col → α) (c : Col) (v : α) :
    applyRow r [(c, v)] = fun x => if x = c then v else r x := rfl

/-- C5 counterexample: in a state with a recorded keyboard message (id 5),
`generate_markup` emits the deletion attempt as its very first effect; the
clearing write of the stored reference (`storeExecute`/`storeCommit`/
`cacheWrite`) only happens afterwards, so the reference is *not* cleared
before the deletion is attempted. -/
theorem delete_attempt_precedes_clear :
    (generate_markup true true "anime:(-)?[0-9]+" 2 3 0 dbA).effects =
      [Effect.deleteMessage (PyVal.int 5) true, Effect.storeExecute 0,
       Effect.storeCommit, Effect.cacheWrite 0] ∧
    (generate_markup true true "anime:(-)?[0-9]+" 2 3 0 dbA).effects.head? =
      some (Effect.deleteMessage (PyVal.int 5) true) := by
  constructor
  · decide
  · decide

/-- C5 (amended): during a navigation cycle that replaces a displayed
message, `generate_markup` first attempts to delete the old message and then
— unconditionally, in a `finally` block, whether or not the deletion
succeeded (`delOk` is arbitrary) — clears the stored reference, committing
SQL NULL for `message_id` to the store; so a failed deletion never leaves the
old message referenced in the store.  (The cached copy is set to the Python
string `"NULL"`, see the C4 counterexample.) -/
lemma generate_markup_of_cached_truthy (delOk : Bool) (pattern : String)
    (current_page last_page : Int) (uid : Nat) (db : DB) (cr : CacheRow)
    (hc : db.cache uid = some cr) (htr : (cr Col.message_id).truthy = true) :
    generate_markup true delOk pattern current_page last_page uid db =
      ⟨mkKeyboard ((pattern.splitOn ":").headD "") (cr Col.step)
          (clamp current_page 1 last_page) last_page,
        updCache (updStore db uid (applyRow ((db.store uid).getD defaultRow)
          [(Col.message_id, SqlVal.null)])) uid
          (applyRow cr [(Col.message_id, PyVal.str "NULL")]),
        [Effect.deleteMessage (cr Col.message_id) delOk,
         Effect.storeExecute uid, Effect.storeCommit, Effect.cacheWrite uid],
        true⟩ := by
  unfold generate_markup
  rw [get_user_data_of_cached hc]
  simp only [htr, if_true]
  rw [set_user_data_of_cached hc renderChanges_clear]
  rfl

lemma generate_markup_of_cached_falsy (storeOk delOk : Bool) (pattern : String)
    (current_page last_page : Int) (uid : Nat) (db : DB) (cr : CacheRow)
    (hc : db.cache uid = some cr) (htr : (cr Col.message_id).truthy = false) :
    generate_markup storeOk delOk pattern current_page last_page uid db =
      ⟨mkKeyboard ((pattern.splitOn ":").headD "") (cr Col.step)
          (clamp current_page 1 last_page) last_page, db, [], true⟩ := by
  unfold generate_markup
  rw [get_user_data_of_cached hc]
  simp only [htr, Bool.false_eq_true, if_false]

/-- C5 (amended): during a navigation cycle that replaces a displayed
message, `generate_markup` first attempts to delete the old message and then
— unconditionally, in a `finally` block, whether or not the deletion
succeeded (`delOk` is arbitrary) — clears the stored reference, committing
SQL NULL for `message_id` to the store; so a failed deletion never leaves the
old message referenced in the store.  (The cached copy is set to the Python
string `"NULL"`, see the C4 counterexample.) -/
theorem clear_follows_delete_attempt_always (delOk : Bool) (pattern : String)
    (current_page last_page : Int) (uid : Nat) (db : DB) (cr : CacheRow)
    (mid : Int) (hc : db.cache uid = some cr)
    (hm : cr Col.message_id = PyVal.int mid) (hm0 : mid ≠ 0) :
    ∃ tail,
      (generate_markup true delOk pattern current_page last_page uid db).effects =
        Effect.deleteMessage (PyVal.int mid) delOk :: tail ∧
      Effect.storeExecute uid ∈ tail ∧ Effect.cacheWrite uid ∈ tail ∧
      storeCol (generate_markup true delOk pattern current_page last_page uid
        db).db uid Col.message_id = some SqlVal.null ∧
      cacheCol (generate_markup true delOk pattern current_page last_page uid
        db).db uid Col.message_id = some (PyVal.str "NULL") := by
  have htr : (cr Col.message_id).truthy = true := by
    rw [hm]
    simp [PyVal.truthy]
    exact hm0
  rw [generate_markup_of_cached_truthy delOk pattern current_page last_page uid
    db cr hc htr, hm]
  refine ⟨[Effect.storeExecute uid, Effect.storeCommit, Effect.cacheWrite uid],
    rfl, by simp, by simp, ?_, ?_⟩
  · unfold storeCol
    have hst : (updCache (updStore db uid
        (applyRow ((db.store uid).getD defaultRow)
          [(Col.message_id, SqlVal.null)])) uid
        (applyRow cr [(Col.message_id, PyVal.str "NULL")])).store uid =
        some (applyRow ((db.store uid).getD defaultRow)
          [(Col.message_id, SqlVal.null)]) := updStore_store_self _ _ _
    rw [hst]
    simp [applyRow_single]
  · unfold cacheCol
    rw [updCache_cache_self]
    simp [applyRow_single]

theorem clear_follows_delete_attempt_always_witness :
    dbA.cache 0 = some cacheA ∧ cacheA Col.message_id = PyVal.int 5 ∧
    ∃ tail,
      (generate_markup true false "anime:(-)?[0-9]+" 2 3 0 dbA).effects =
        Effect.deleteMessage (PyVal.int 5) false :: tail ∧
      Effect.storeExecute 0 ∈ tail ∧ Effect.cacheWrite 0 ∈ tail ∧
      storeCol (generate_markup true false "anime:(-)?[0-9]+" 2 3 0 dbA).db
        0 Col.message_id = some SqlVal.null ∧
      cacheCol (generate_markup true false "anime:(-)?[0-9]+" 2 3 0 dbA).db
        0 Col.message_id = some (PyVal.str "NULL") :=
  ⟨rfl, rfl, clear_follows_delete_attempt_always false "anime:(-)?[0-9]+" 2 3 0
    dbA cacheA 5 rfl rfl (by decide)⟩

lemma get_user_data_of_miss {uid : Nat} {db : DB}
    (hc : db.cache uid = Option.none) :
    get_user_data uid db =
      ((fun c => sqlToPy (((db.store uid).getD defaultRow) c)),
       updCache (updStore db uid ((db.store uid).getD defaultRow)) uid
         (fun c => sqlToPy (((db.store uid).getD defaultRow) c)),
       [Effect.storeInsertDefault uid, Effect.cachePopulate uid]) := by
  unfold get_user_data
  rw [ensureCache_of_miss hc]
  simp [updCache_cache_self]

/-- A database with an empty store and an empty cache (a freshly restarted
process over a fresh database file). -/
def dbEmpty : DB := ⟨fun _ => Option.none, fun _ => Option.none⟩

/-- C7 counterexample: a navigation click arriving with an empty cache and an
empty store does reply with the reissue instruction, but it is not free of
writes — the lazy read-through of `get_user_data` inserts a default row into
the store and populates the cache, so "no mutation of the cache or the
store" is false as stated. -/
theorem uninitialized_click_creates_default_row :
    dbEmpty.store 0 = Option.none ∧ dbEmpty.cache 0 = Option.none ∧
    Effect.replyText "Please run the command again" ∈
      (handle_next true true "anime:(-)?[0-9]+" 1 99 0 dbEmpty).effects ∧
    ((handle_next true true "anime:(-)?[0-9]+" 1 99 0 dbEmpty).db.store 0).isSome
      = true ∧
    ((handle_next true true "anime:(-)?[0-9]+" 1 99 0 dbEmpty).db.cache 0).isSome
      = true := by
  refine ⟨rfl, rfl, by decide, rfl, rfl⟩

/-- C7 (amended): on a navigation click with a falsy (absent/None) stored
`current_page`, `handle_next` replies with the reissue instruction and writes
no pagination data: `set_user_data` never runs (no store execute/commit, no
cache write), no fetch and no message send happens, and the store is
untouched except that the lazy read-through may create the all-default row
for a user that had none (mirroring `setup_data_cache`); the cache likewise
either is untouched or is populated with the Python reading of that user's
stored row. -/
theorem uninitialized_click_replies_without_pagination_mutation
    (storeOk delOk : Bool) (pattern : String) (step newMsgId : Int) (uid : Nat)
    (db : DB)
    (h : ((get_user_data uid db).1 Col.current_page).truthy = false) :
    Effect.replyText "Please run the command again" ∈
      (handle_next storeOk delOk pattern step newMsgId uid db).effects ∧
    ((handle_next storeOk delOk pattern step newMsgId uid db).db.store uid =
        db.store uid ∨
      (db.store uid = Option.none ∧
        (handle_next storeOk delOk pattern step newMsgId uid db).db.store uid =
          some defaultRow)) ∧
    ((handle_next storeOk delOk pattern step newMsgId uid db).db.cache uid =
        db.cache uid ∨
      (db.cache uid = Option.none ∧
        ∃ sr0, (handle_next storeOk delOk pattern step newMsgId uid db).db.store
            uid = some sr0 ∧
          (handle_next storeOk delOk pattern step newMsgId uid db).db.cache uid =
            some (fun c => sqlToPy (sr0 c)))) ∧
    Effect.storeExecute uid ∉
      (handle_next storeOk delOk pattern step newMsgId uid db).effects ∧
    Effect.storeCommit ∉
      (handle_next storeOk delOk pattern step newMsgId uid db).effects ∧
    Effect.cacheWrite uid ∉
      (handle_next storeOk delOk pattern step newMsgId uid db).effects ∧
    (∀ i p, Effect.fetch i p ∉
      (handle_next storeOk delOk pattern step newMsgId uid db).effects) ∧
    (∀ kb, Effect.sendMessage kb ∉
      (handle_next storeOk delOk pattern step newMsgId uid db).effects) := by
  rcases hc : db.cache uid with _ | cr
  · rw [get_user_data_of_miss hc] at h
    unfold handle_next
    rw [get_user_data_of_miss hc]
    simp only [h]
    rw [if_pos trivial]
    refine ⟨by simp, ?_, ?_, by simp, by simp, by simp, ?_, ?_⟩
    · rcases hs : db.store uid with _ | sr
      · right
        exact ⟨rfl, updStore_store_self _ _ _⟩
      · left
        exact updStore_store_self _ _ _
    · right
      refine ⟨trivial, ⟨(db.store uid).getD defaultRow,
        updStore_store_self _ _ _, updCache_cache_self _ _ _⟩⟩
    · intro i p
      simp
    · intro kb
      simp
  · rw [get_user_data_of_cached hc] at h
    unfold handle_next
    rw [get_user_data_of_cached hc]
    simp only [h]
    rw [if_pos trivial]
    refine ⟨by simp, Or.inl rfl, Or.inl hc, by simp, by simp, by simp, ?_, ?_⟩
    · intro i p
      simp
    · intro kb
      simp

theorem uninitialized_click_replies_without_pagination_mutation_witness :
    ((get_user_data 0 dbEmpty).1 Col.current_page).truthy = false ∧
    Effect.replyText "Please run the command again" ∈
      (handle_next true true "anime:(-)?[0-9]+" 2 42 0 dbEmpty).effects ∧
    Effect.cacheWrite 0 ∉
      (handle_next true true "anime:(-)?[0-9]+" 2 42 0 dbEmpty).effects :=
  ⟨rfl,
   (uninitialized_click_replies_without_pagination_mutation true true
      "anime:(-)?[0-9]+" 2 42 0 dbEmpty rfl).1,
   (uninitialized_click_replies_without_pagination_mutation true true
      "anime:(-)?[0-9]+" 2 42 0 dbEmpty rfl).2.2.2.2.2.1⟩

lemma truthy_int_of_ne {v : PyVal} {n : Int} (hv : v = PyVal.int n)
    (hn : n ≠ 0) : v.truthy = true := by
  rw [hv]
  simp [PyVal.truthy]
  exact hn

lemma handle_next_noop (storeOk delOk : Bool) (pattern : String)
    (step newMsgId : Int) (uid : Nat) (db : DB) (cr : CacheRow) (c l : Int)
    (hc : db.cache uid = some cr) (hcur : cr Col.current_page = PyVal.int c)
    (hlast : cr Col.last_page = PyVal.int l) (hc0 : c ≠ 0)
    (hnoop : clamp (c + step) 1 l = c) :
    handle_next storeOk delOk pattern step newMsgId uid db = ⟨db, [], true⟩ := by
  unfold handle_next
  rw [get_user_data_of_cached hc]
  simp only [truthy_int_of_ne hcur hc0, Bool.true_eq_false, if_false]
  simp only [hcur, hlast, PyVal.toIntD, hnoop]
  rw [if_pos trivial]

lemma handle_next_noop_miss (storeOk delOk : Bool) (pattern : String)
    (step newMsgId : Int) (uid : Nat) (db : DB) (sr : StoreRow) (c l : Int)
    (hcc : db.cache uid = Option.none) (hs : db.store uid = some sr)
    (hcur : sr Col.current_page = SqlVal.int c)
    (hlast : sr Col.last_page = SqlVal.int l) (hc0 : c ≠ 0)
    (hnoop : clamp (c + step) 1 l = c) :
    handle_next storeOk delOk pattern step newMsgId uid db =
      ⟨updCache (updStore db uid sr) uid (fun x => sqlToPy (sr x)),
       [Effect.storeInsertDefault uid, Effect.cachePopulate uid], true⟩ := by
  unfold handle_next
  rw [get_user_data_of_miss hcc, hs]
  simp only [Option.getD_some]
  have hcur2 : sqlToPy (sr Col.current_page) = PyVal.int c := by
    rw [hcur]
    rfl
  have hlast2 : sqlToPy (sr Col.last_page) = PyVal.int l := by
    rw [hlast]
    rfl
  simp only [hcur2, hlast2, truthy_int_of_ne rfl hc0, Bool.true_eq_false,
    if_false, PyVal.toIntD, hnoop]
  rw [if_pos trivial]

/-- A one-user database holding a committed row (page 1 of 3) but an empty
cache: the state of that session right after a process restart. -/
def dbRowOnly : DB :=
  ⟨fun u => if u = 0 then some rowA else Option.none, fun _ => Option.none⟩

/-- C3 counterexample: after a restart (row in the store, empty cache) a
click whose clamped target equals the current page — here step `-1` on page
1 of 3 — is NOT free of writes: the lazy read-through executes the
`INSERT OR IGNORE` against the store and writes a `data_cache` entry for the
user, so "no write to the cache or the store occurs" fails in exactly the
scenario the claim covers. -/
theorem noop_click_after_restart_populates_cache :
    dbRowOnly.cache 0 = Option.none ∧
    dbRowOnly.store 0 = some rowA ∧
    rowA Col.current_page = SqlVal.int 1 ∧ rowA Col.last_page = SqlVal.int 3 ∧
    clamp (1 + (-1)) 1 3 = 1 ∧
    (handle_next true true "anime:(-)?[0-9]+" (-1) 99 0 dbRowOnly).effects =
      [Effect.storeInsertDefault 0, Effect.cachePopulate 0] ∧
    ((handle_next true true "anime:(-)?[0-9]+" (-1) 99 0
      dbRowOnly).db.cache 0).isSome = true := by
  exact ⟨rfl, rfl, rfl, rfl, by decide, by decide, by decide⟩

/-- C3 (amended): a navigation click whose clamped target page equals the
current page commits nothing and sends nothing; its only possible activity
is the lazy cache read-through.  With the user's row cached it is a complete
no-op: `handle_next` leaves the database unchanged and produces no effect
whatsoever.  With a cache miss (after a restart) the read-through runs
first: the result is exactly the read-through image of the database — the
`INSERT OR IGNORE` effect, the cache-populate effect, and nothing else —
with the user's durable row values unchanged.  The last two conjuncts show
that stepping backward (any negative step) from page 1 and stepping forward
(any positive step) from the last page always fall in this no-op case. -/
theorem handle_next_noop_frame_on_equal_target :
    (∀ (storeOk delOk : Bool) (pattern : String) (step newMsgId : Int)
      (uid : Nat) (db : DB) (cr : CacheRow) (c l : Int),
      db.cache uid = some cr → cr Col.current_page = PyVal.int c →
      cr Col.last_page = PyVal.int l → c ≠ 0 → clamp (c + step) 1 l = c →
      handle_next storeOk delOk pattern step newMsgId uid db = ⟨db, [], true⟩) ∧
    (∀ (storeOk delOk : Bool) (pattern : String) (step newMsgId : Int)
      (uid : Nat) (db : DB) (sr : StoreRow) (c l : Int),
      db.cache uid = Option.none → db.store uid = some sr →
      sr Col.current_page = SqlVal.int c → sr Col.last_page = SqlVal.int l →
      c ≠ 0 → clamp (c + step) 1 l = c →
      handle_next storeOk delOk pattern step newMsgId uid db =
        ⟨updCache (updStore db uid sr) uid (fun x => sqlToPy (sr x)),
         [Effect.storeInsertDefault uid, Effect.cachePopulate uid], true⟩ ∧
      (handle_next storeOk delOk pattern step newMsgId uid db).db.store uid =
        some sr) ∧
    (∀ c l step : Int, 1 ≤ c → c ≤ l → c = 1 → step < 0 →
      clamp (c + step) 1 l = c) ∧
    (∀ c l step : Int, 1 ≤ c → c ≤ l → c = l → 0 < step →
      clamp (c + step) 1 l = c) := by
  refine ⟨handle_next_noop, ?_, ?_, ?_⟩
  · intro storeOk delOk pattern step newMsgId uid db sr c l hcc hs hcur hlast
      hc0 hnoop
    have he := handle_next_noop_miss storeOk delOk pattern step newMsgId uid db
      sr c l hcc hs hcur hlast hc0 hnoop
    refine ⟨he, ?_⟩
    rw [he]
    exact updStore_store_self _ _ _
  · intro c l step h1 h2 h3 h4
    subst h3
    unfold clamp
    rw [max_def, min_def]
    split_ifs <;> omega
  · intro c l step h1 h2 h3 h4
    subst h3
    unfold clamp
    rw [max_def, min_def]
    split_ifs <;> omega

theorem handle_next_noop_frame_on_equal_target_witness :
    (dbA.cache 0 = some cacheA ∧ cacheA Col.current_page = PyVal.int 1 ∧
      cacheA Col.last_page = PyVal.int 3 ∧ clamp (1 + (-1)) 1 3 = 1 ∧
      handle_next true true "anime:(-)?[0-9]+" (-1) 99 0 dbA =
        ⟨dbA, [], true⟩) ∧
    (dbRowOnly.cache 0 = Option.none ∧ dbRowOnly.store 0 = some rowA ∧
      (handle_next true true "anime:(-)?[0-9]+" (-1) 99 0 dbRowOnly).db.store 0 =
        some rowA) :=
  ⟨⟨rfl, rfl, rfl, by decide,
    handle_next_noop_frame_on_equal_target.1 true true "anime:(-)?[0-9]+" (-1)
      99 0 dbA cacheA 1 3 rfl rfl rfl (by decide) (by decide)⟩,
   ⟨rfl, rfl,
    (handle_next_noop_frame_on_equal_target.2.1 true true "anime:(-)?[0-9]+"
      (-1) 99 0 dbRowOnly rowA 1 3 rfl rfl rfl rfl (by decide)
      (by decide)).2⟩⟩

/-- The page columns of a user's row hold exactly the integers `c` and `l`,
in the store and in the cache (when cached). -/
def pagesAre (uid : Nat) (db : DB) (c l : Int) : Prop :=
  (∃ r, db.store uid = some r ∧ r Col.current_page = SqlVal.int c ∧
    r Col.last_page = SqlVal.int l) ∧
  (∀ cr, db.cache uid = some cr → cr Col.current_page = PyVal.int c ∧
    cr Col.last_page = PyVal.int l)

lemma pagesInv_iff (uid : Nat) (db : DB) :
    pagesInv uid db ↔ ∃ c l : Int, 1 ≤ c ∧ c ≤ l ∧ pagesAre uid db c l :=
  Iff.rfl

lemma pagesAre_ensure {uid : Nat} {db : DB} {c l : Int}
    (h : pagesAre uid db c l) : pagesAre uid (ensureCache uid db).1 c l := by
  rcases hcc : db.cache uid with _ | cr
  · obtain ⟨⟨sr, hsr, h1, h2⟩, hcache⟩ := h
    rw [ensureCache_of_miss hcc, hsr]
    simp only [Option.getD_some]
    constructor
    · exact ⟨sr, updStore_store_self _ _ _, h1, h2⟩
    · intro cr2 hcr2
      rw [updCache_cache_self] at hcr2
      obtain rfl := Option.some.inj hcr2
      constructor
      · show sqlToPy (sr Col.current_page) = PyVal.int c
        rw [h1]
        rfl
      · show sqlToPy (sr Col.last_page) = PyVal.int l
        rw [h2]
        rfl
  · rw [ensureCache_of_cached hcc]
    exact h

lemma pagesAre_set_untouched (storeOk : Bool) {uid : Nat}
    {changes : List (Col × PyVal)} {db : DB} {c l : Int}
    (hnoc : ∀ p ∈ changes, p.1 ≠ Col.current_page ∧ p.1 ≠ Col.last_page)
    (h : pagesAre uid db c l) :
    pagesAre uid (set_user_data storeOk uid changes db).db c l := by
  have hE := pagesAre_ensure h
  rcases hr : renderChanges changes with _ | svals
  · rw [set_user_data_noRender storeOk uid changes db hr]
    exact hE
  · cases storeOk with
    | false =>
        rw [set_user_data_falseOk]
        exact hE
    | true =>
        rw [set_user_data_true_some uid changes db svals hr]
        obtain ⟨⟨sr, hsr, h1, h2⟩, hcache⟩ := hE
        obtain ⟨cr0, hcr0⟩ := ensureCache_cache_some uid db
        obtain ⟨hq1, hq2⟩ := hcache cr0 hcr0
        constructor
        · refine ⟨_, updStore_store_self _ _ _, ?_, ?_⟩
          · rw [applyRow_not_mem _ _ _ (rendered_cols_eq (renderChanges_rel hr)
              _ (fun p hp => (hnoc p hp).1))]
            rw [hsr]
            simp only [Option.getD_some]
            exact h1
          · rw [applyRow_not_mem _ _ _ (rendered_cols_eq (renderChanges_rel hr)
              _ (fun p hp => (hnoc p hp).2))]
            rw [hsr]
            simp only [Option.getD_some]
            exact h2
        · intro cr2 hcr2
          rw [updCache_cache_self] at hcr2
          obtain rfl := Option.some.inj hcr2
          constructor
          · rw [applyRow_not_mem _ _ _ (fun p hp => (hnoc p hp).1)]
            rw [hcr0]
            simp only [Option.getD_some]
            exact hq1
          · rw [applyRow_not_mem _ _ _ (fun p hp => (hnoc p hp).2)]
            rw [hcr0]
            simp only [Option.getD_some]
            exact hq2

lemma generate_markup_db_cases (storeOk delOk : Bool) (pattern : String)
    (cp lp : Int) (uid : Nat) (db : DB) :
    (generate_markup storeOk delOk pattern cp lp uid db).db =
      (set_user_data storeOk uid [(Col.message_id, PyVal.str "NULL")]
        (ensureCache uid db).1).db ∨
    (generate_markup storeOk delOk pattern cp lp uid db).db =
      (ensureCache uid db).1 := by
  unfold generate_markup get_user_data
  by_cases htr : ((((ensureCache uid db).1.cache uid).getD
      (fun _ => PyVal.none)) Col.message_id).truthy = true
  · rw [if_pos htr]
    by_cases hok : (set_user_data storeOk uid
        [(Col.message_id, PyVal.str "NULL")] (ensureCache uid db).1).ok = true
    · rw [if_pos hok]
      exact Or.inl rfl
    · rw [if_neg hok]
      exact Or.inl rfl
  · rw [if_neg htr]
    exact Or.inr rfl

lemma pagesAre_generate_markup (storeOk delOk : Bool) (pattern : String)
    (cp lp : Int) {uid : Nat} {db : DB} {c l : Int} (h : pagesAre uid db c l) :
    pagesAre uid (generate_markup storeOk delOk pattern cp lp uid db).db c l := by
  rcases generate_markup_db_cases storeOk delOk pattern cp lp uid db with hd | hd
  · rw [hd]
    refine pagesAre_set_untouched storeOk ?_ (pagesAre_ensure h)
    intro p hp
    simp only [List.mem_cons, List.not_mem_nil, or_false] at hp
    rw [hp]
    exact ⟨by decide, by decide⟩
  · rw [hd]
    exact pagesAre_ensure h

lemma renderChanges_nav (mid next : Int) :
    renderChanges [(Col.message_id, PyVal.int mid),
      (Col.current_page, PyVal.int next)] =
      some [(Col.message_id, SqlVal.int mid),
        (Col.current_page, SqlVal.int next)] := rfl

lemma get_user_data_pages {uid : Nat} {db : DB} {c l : Int}
    (h : pagesAre uid db c l) :
    (get_user_data uid db).1 Col.current_page = PyVal.int c ∧
    (get_user_data uid db).1 Col.last_page = PyVal.int l ∧
    pagesAre uid (get_user_data uid db).2.1 c l := by
  have hE := pagesAre_ensure h
  obtain ⟨cr0, hcr0⟩ := ensureCache_cache_some uid db
  obtain ⟨hp1, hp2⟩ := hE.2 cr0 hcr0
  have hfst : (get_user_data uid db).1 = cr0 := by
    unfold get_user_data
    simp only [hcr0, Option.getD_some]
  have hsnd : (get_user_data uid db).2.1 = (ensureCache uid db).1 := rfl
  rw [hfst, hsnd]
  exact ⟨hp1, hp2, hE⟩

lemma pagesInv_handle_next (storeOk delOk : Bool) (pattern : String)
    (step mid : Int) (uid : Nat) (db : DB) (h : pagesInv uid db) :
    pagesInv uid (handle_next storeOk delOk pattern step mid uid db).db := by
  obtain ⟨c, l, h1, h2, hare⟩ := h
  obtain ⟨hg1, hg2, hgE⟩ := get_user_data_pages hare
  have hl1 : (1 : Int) ≤ l := le_trans h1 h2
  have htrue : (PyVal.int c).truthy = true := by
    simp [PyVal.truthy]
    omega
  simp only [handle_next]
  rw [hg1, hg2]
  simp only [htrue, Bool.true_eq_false, if_false, PyVal.toIntD]
  by_cases hne : clamp (c + step) 1 l = c
  · rw [if_pos hne]
    exact ⟨c, l, h1, h2, hgE⟩
  · rw [if_neg hne]
    rcases hdk : decodeKwargsVal ((get_user_data uid db).1 Col.kwargs)
      with _ | ident
    · exact ⟨c, l, h1, h2, hgE⟩
    · simp only []
      have hm : pagesAre uid (generate_markup storeOk delOk pattern
          (clamp (c + step) 1 l) l uid (get_user_data uid db).2.1).db c l :=
        pagesAre_generate_markup _ _ _ _ _ hgE
      by_cases hok : (generate_markup storeOk delOk pattern
          (clamp (c + step) 1 l) l uid (get_user_data uid db).2.1).ok = true
      · rw [if_pos hok]
        cases storeOk with
        | false =>
            rw [set_user_data_falseOk]
            exact ⟨c, l, h1, h2, pagesAre_ensure hm⟩
        | true =>
            rw [set_user_data_true_some _ _ _ _
              (renderChanges_nav mid (clamp (c + step) 1 l))]
            have hmE := pagesAre_ensure hm
            obtain ⟨⟨sr, hsr, hs1, hs2⟩, hcache⟩ := hmE
            obtain ⟨cr0, hcr0⟩ := ensureCache_cache_some uid _
            obtain ⟨hq1, hq2⟩ := hcache cr0 hcr0
            refine ⟨clamp (c + step) 1 l, l, (clamp_mem _ _ _ hl1).1,
              (clamp_mem _ _ _ hl1).2, ⟨_, updStore_store_self _ _ _, ?_, ?_⟩,
              ?_⟩
            · simp [applyRow]
            · simp only [applyRow, List.foldl]
              rw [if_neg (by decide), if_neg (by decide), hsr]
              simp only [Option.getD_some]
              exact hs2
            · intro cr2 hcr2
              rw [updCache_cache_self] at hcr2
              obtain rfl := Option.some.inj hcr2
              constructor
              · simp [applyRow]
              · simp only [applyRow, List.foldl]
                rw [if_neg (by decide), if_neg (by decide), hcr0]
                simp only [Option.getD_some]
                exact hq2
      · rw [if_neg hok]
        exact ⟨c, l, h1, h2, hm⟩

lemma pagesInv_navigate (storeOk delOk : Bool) (pattern : String) (uid : Nat) :
    ∀ (clicks : List (Int × Int)) (db : DB), pagesInv uid db →
      pagesInv uid (navigate storeOk delOk pattern uid clicks db) := by
  intro clicks
  induction clicks with
  | nil =>
      intro db h
      exact h
  | cons click rest ih =>
      intro db h
      exact ih _ (pagesInv_handle_next storeOk delOk pattern click.1 click.2
        uid db h)

lemma renderChanges_int_cons (c0 : Col) (n : Int) (t : List (Col × PyVal)) :
    renderChanges ((c0, PyVal.int n) :: t) =
      (renderChanges t).map (fun rs => (c0, SqlVal.int n) :: rs) := by
  rcases h : renderChanges t with _ | rs <;> simp [renderChanges, sqlEval, h]

lemma renderChanges_str_single (c0 : Col) (kw : String) :
    renderChanges [(c0, PyVal.str kw)] =
      (sqlEvalStr kw.toList).map (fun sk => [(c0, sk)]) := by
  rcases h : sqlEvalStr kw.toList with _ | sk <;>
    simp only [String.toList] at h <;> simp [renderChanges, sqlEval, h]

lemma renderChanges_first (newMsgId srcMsgId cur last : Int) (kw : String) :
    renderChanges [(Col.message_id, PyVal.int newMsgId),
      (Col.reply_id, PyVal.int srcMsgId), (Col.current_page, PyVal.int cur),
      (Col.last_page, PyVal.int last), (Col.kwargs, PyVal.str kw)] =
    (sqlEvalStr kw.toList).map (fun sk =>
      [(Col.message_id, SqlVal.int newMsgId),
       (Col.reply_id, SqlVal.int srcMsgId),
       (Col.current_page, SqlVal.int cur), (Col.last_page, SqlVal.int last),
       (Col.kwargs, sk)]) := by
  rw [renderChanges_int_cons, renderChanges_int_cons, renderChanges_int_cons,
    renderChanges_int_cons, renderChanges_str_single]
  rcases h : sqlEvalStr kw.toList with _ | sk <;> simp [h]

lemma pagesInv_handle_first (storeOk delOk : Bool)
    (pattern identifier : String) (apiCur apiLast srcMsgId newMsgId : Int)
    (uid : Nat) (db : DB) (hne : identifier.length ≠ 0) (hap : 1 ≤ apiCur)
    (hal : apiCur ≤ apiLast)
    (hok : (handle_first storeOk delOk pattern identifier apiCur apiLast
      srcMsgId newMsgId uid db).ok = true) :
    pagesInv uid (handle_first storeOk delOk pattern identifier apiCur apiLast
      srcMsgId newMsgId uid db).db := by
  simp only [handle_first] at hok ⊢
  rw [if_neg hne] at hok ⊢
  have hcur1 : 1 ≤ (if pyIsNumeric identifier = true then (1 : Int)
      else apiCur) := by
    split_ifs <;> omega
  have hcurle : (if pyIsNumeric identifier = true then (1 : Int) else apiCur) ≤
      (if pyIsNumeric identifier = true then (1 : Int) else apiLast) := by
    split_ifs <;> omega
  by_cases hmok : (generate_markup storeOk delOk pattern
      (if pyIsNumeric identifier = true then 1 else apiCur)
      (if pyIsNumeric identifier = true then 1 else apiLast) uid db).ok = true
  · rw [if_pos hmok] at hok ⊢
    cases storeOk with
    | false =>
        rw [set_user_data_falseOk] at hok
        cases hok
    | true =>
        rcases hsk : sqlEvalStr (kwargsLiteral identifier).toList with _ | sk
        · have hrc : renderChanges [(Col.message_id, PyVal.int newMsgId),
            (Col.reply_id, PyVal.int srcMsgId),
            (Col.current_page, PyVal.int (if pyIsNumeric identifier = true
              then 1 else apiCur)),
            (Col.last_page, PyVal.int (if pyIsNumeric identifier = true
              then 1 else apiLast)),
            (Col.kwargs, PyVal.str (kwargsLiteral identifier))] =
              Option.none := by
            rw [renderChanges_first, hsk]
            rfl
          rw [set_user_data_noRender _ _ _ _ hrc] at hok
          cases hok
        · have hrc : renderChanges [(Col.message_id, PyVal.int newMsgId),
            (Col.reply_id, PyVal.int srcMsgId),
            (Col.current_page, PyVal.int (if pyIsNumeric identifier = true
              then 1 else apiCur)),
            (Col.last_page, PyVal.int (if pyIsNumeric identifier = true
              then 1 else apiLast)),
            (Col.kwargs, PyVal.str (kwargsLiteral identifier))] =
              some [(Col.message_id, SqlVal.int newMsgId),
                (Col.reply_id, SqlVal.int srcMsgId),
                (Col.current_page, SqlVal.int (if pyIsNumeric identifier = true
                  then 1 else apiCur)),
                (Col.last_page, SqlVal.int (if pyIsNumeric identifier = true
                  then 1 else apiLast)),
                (Col.kwargs, sk)] := by
            rw [renderChanges_first, hsk]
            rfl
          rw [set_user_data_true_some _ _ _ _ hrc]
          refine ⟨_, _, hcur1, hcurle, ⟨_, updStore_store_self _ _ _, ?_, ?_⟩,
            ?_⟩
          · simp [applyRow]
          · simp [applyRow]
          · intro cr2 hcr2
            rw [updCache_cache_self] at hcr2
            obtain rfl := Option.some.inj hcr2
            constructor
            · simp [applyRow]
            · simp [applyRow]
  · rw [if_neg hmok] at hok
    cases hok

/-- C1: every committed mutation of a user's pagination state satisfies
`1 ≤ current_page ≤ last_page` — the commit at the end of `handle_first`
establishes it (provided the content-fetch collaborator reports a valid
pagination `1 ≤ apiCur ≤ apiLast`, as its interface contract states; a
numeric identifier forces the valid `OnePage` 1/1), and the commit at the
end of `handle_next` preserves it across any sequence of navigation clicks,
regardless of step values, transport outcomes or storage availability. -/
theorem committed_pagination_state_invariant :
    (∀ (storeOk delOk : Bool) (pattern identifier : String)
      (apiCur apiLast srcMsgId newMsgId : Int) (uid : Nat) (db : DB),
      identifier.length ≠ 0 → 1 ≤ apiCur → apiCur ≤ apiLast →
      (handle_first storeOk delOk pattern identifier apiCur apiLast srcMsgId
        newMsgId uid db).ok = true →
      pagesInv uid (handle_first storeOk delOk pattern identifier apiCur
        apiLast srcMsgId newMsgId uid db).db) ∧
    (∀ (storeOk delOk : Bool) (pattern : String) (uid : Nat)
      (clicks : List (Int × Int)) (db : DB), pagesInv uid db →
      pagesInv uid (navigate storeOk delOk pattern uid clicks db)) :=
  ⟨fun storeOk delOk pattern identifier apiCur apiLast srcMsgId newMsgId uid db
      hne hap hal hok => pagesInv_handle_first storeOk delOk pattern identifier
        apiCur apiLast srcMsgId newMsgId uid db hne hap hal hok,
   fun storeOk delOk pattern uid clicks db h =>
      pagesInv_navigate storeOk delOk pattern uid clicks db h⟩

theorem committed_pagination_state_invariant_witness :
    ("naruto".length ≠ 0 ∧
      (handle_first true true "anime:(-)?[0-9]+" "naruto" 1 3 10 11 0
        dbEmpty).ok = true) ∧
    pagesInv 0 (handle_first true true "anime:(-)?[0-9]+" "naruto" 1 3 10 11 0
      dbEmpty).db ∧
    pagesInv 0 (navigate true true "anime:(-)?[0-9]+" 0 [(1, 12), (-1, 13)]
      (handle_first true true "anime:(-)?[0-9]+" "naruto" 1 3 10 11 0
        dbEmpty).db) := by
  have h1 := committed_pagination_state_invariant.1 true true
    "anime:(-)?[0-9]+" "naruto" 1 3 10 11 0 dbEmpty (by decide) (by decide)
    (by decide) (by decide)
  exact ⟨⟨by decide, by decide⟩, h1,
    committed_pagination_state_invariant.2 true true "anime:(-)?[0-9]+" 0
      [(1, 12), (-1, 13)] _ h1⟩

lemma squote_ne_hexDigit (m : Nat) (h : m < 16) : hexDigit m ≠ squote := by
  interval_cases m <;> decide

lemma squote_not_mem_hex4 (n : Nat) : squote ∉ hex4 n := by
  intro hm
  simp only [hex4, List.mem_cons, List.not_mem_nil, or_false] at hm
  rcases hm with h | h | h | h <;>
    exact squote_ne_hexDigit _ (Nat.mod_lt _ (by norm_num)) h.symm

lemma squote_not_mem_jsonEscapeChar {c : Char} (hc : c ≠ squote) :
    squote ∉ jsonEscapeChar c := by
  unfold jsonEscapeChar
  by_cases h1 : c = dquote
  · rw [if_pos h1]; decide
  rw [if_neg h1]
  by_cases h2 : c = bslash
  · rw [if_pos h2]; decide
  rw [if_neg h2]
  by_cases h3 : c = Char.ofNat 10
  · rw [if_pos h3]; decide
  rw [if_neg h3]
  by_cases h4 : c = Char.ofNat 9
  · rw [if_pos h4]; decide
  rw [if_neg h4]
  by_cases h5 : c = Char.ofNat 13
  · rw [if_pos h5]; decide
  rw [if_neg h5]
  by_cases h6 : c = Char.ofNat 8
  · rw [if_pos h6]; decide
  rw [if_neg h6]
  by_cases h7 : c = Char.ofNat 12
  · rw [if_pos h7]; decide
  rw [if_neg h7]
  by_cases h8 : c.toNat < 32
  · rw [if_pos h8]
    intro hm
    simp only [List.mem_cons] at hm
    rcases hm with h | h | h
    · exact absurd h (by decide)
    · exact absurd h (by decide)
    · exact squote_not_mem_hex4 _ h
  rw [if_neg h8]
  by_cases h9 : c.toNat < 127
  · rw [if_pos h9]
    intro hm
    simp only [List.mem_cons, List.not_mem_nil, or_false] at hm
    exact hc hm.symm
  rw [if_neg h9]
  by_cases h10 : c.toNat < 65536
  · rw [if_pos h10]
    intro hm
    simp only [List.mem_cons] at hm
    rcases hm with h | h | h
    · exact absurd h (by decide)
    · exact absurd h (by decide)
    · exact squote_not_mem_hex4 _ h
  rw [if_neg h10]
  intro hm
  simp only [List.mem_append, List.mem_cons] at hm
  rcases hm with (h | h | h) | (h | h | h)
  · exact absurd h (by decide)
  · exact absurd h (by decide)
  · exact squote_not_mem_hex4 _ h
  · exact absurd h (by decide)
  · exact absurd h (by decide)
  · exact squote_not_mem_hex4 _ h

lemma squote_not_mem_jsonEscape (l : List Char) (h : squote ∉ l) :
    squote ∉ jsonEscape l := by
  induction l with
  | nil =>
      simp [jsonEscape]
  | cons c t ih =>
      intro hmem
      rcases List.mem_append.mp hmem with hm | hm
      · exact squote_not_mem_jsonEscapeChar
          (fun hx => h (hx ▸ List.mem_cons_self _ _)) hm
      · exact ih (fun hx => h (List.mem_cons_of_mem _ hx)) hm

lemma jsonDumpsIdentifier_toList (s : String) :
    (jsonDumpsIdentifier s).toList =
      jsonKeyStart ++ jsonEscape s.toList ++ "\"\x7d".toList := rfl

lemma kwargsLiteral_toList (s : String) :
    (kwargsLiteral s).toList =
      squote :: ((jsonDumpsIdentifier s).toList ++ [squote]) := rfl

lemma squote_not_mem_dumps (s : String) (hq : squote ∉ s.toList) :
    squote ∉ (jsonDumpsIdentifier s).toList := by
  rw [jsonDumpsIdentifier_toList]
  intro hmem
  rcases List.mem_append.mp hmem with hm | hm
  · rcases List.mem_append.mp hm with hm2 | hm2
    · exact absurd hm2 (by decide)
    · exact squote_not_mem_jsonEscape s.toList hq hm2
  · exact absurd hm (by decide)

lemma sqlStringScan_append_end (body : List Char) (h : squote ∉ body) :
    sqlStringScan (body ++ [squote]) = some (body, []) := by
  induction body with
  | nil =>
      rw [List.nil_append]
      conv_lhs => rw [sqlStringScan.eq_def]
      simp only []
      rw [if_pos trivial]
  | cons a t ih =>
      have ha : a ≠ squote := fun hx => h (hx ▸ List.mem_cons_self _ _)
      rw [List.cons_append]
      conv_lhs => rw [sqlStringScan.eq_def]
      simp only []
      rw [if_neg ha, ih (fun hx => h (List.mem_cons_of_mem _ hx))]
      rfl

lemma sqlEval_kwargsLiteral (s : String) (hq : squote ∉ s.toList) :
    sqlEval (PyVal.str (kwargsLiteral s)) =
      some (SqlVal.text (jsonDumpsIdentifier s)) := by
  show sqlEvalStr (kwargsLiteral s).toList = _
  rw [kwargsLiteral_toList]
  unfold sqlEvalStr
  rw [if_neg (by intro hx; cases hx)]
  simp only []
  rw [if_pos trivial,
    sqlStringScan_append_end _ (squote_not_mem_dumps s hq)]
  rfl

lemma dropWhile_eq_self_of_head (c : Char) (l : List Char)
    (h : ∀ x, l.head? = some x → x ≠ c) :
    l.dropWhile (fun x => x = c) = l := by
  cases l with
  | nil => rfl
  | cons a t =>
      rw [List.dropWhile_cons_of_neg]
      simp only [decide_eq_true_eq]
      exact h a rfl

lemma pyStripChar_of_ne (c : Char) (l : List Char)
    (h1 : ∀ x, l.head? = some x → x ≠ c)
    (h2 : ∀ x, l.getLast? = some x → x ≠ c) :
    pyStripChar c l = l := by
  unfold pyStripChar
  rw [dropWhile_eq_self_of_head c l h1]
  rw [dropWhile_eq_self_of_head c l.reverse (by
    intro x hx
    exact h2 x (by rw [← List.head?_reverse]; exact hx))]
  exact List.reverse_reverse l

lemma pyStripChar_wrap (c : Char) (l : List Char)
    (h1 : ∀ x, l.head? = some x → x ≠ c)
    (h2 : ∀ x, l.getLast? = some x → x ≠ c) :
    pyStripChar c (c :: (l ++ [c])) = l := by
  unfold pyStripChar
  rw [List.dropWhile_cons_of_pos (by simp)]
  cases l with
  | nil =>
      simp [List.dropWhile]
  | cons a t =>
      rw [List.cons_append, List.dropWhile_cons_of_neg (by
        simp only [decide_eq_true_eq]
        exact h1 a rfl)]
      rw [← List.cons_append, List.reverse_append]
      simp only [List.reverse_singleton, List.singleton_append]
      rw [List.dropWhile_cons_of_pos (by simp)]
      rw [dropWhile_eq_self_of_head c (a :: t).reverse (by
        intro x hx
        exact h2 x (by rw [← List.head?_reverse]; exact hx))]
      exact List.reverse_reverse _

lemma stripPrefixChars_append (pre rest : List Char) :
    stripPrefixChars pre (pre ++ rest) = some rest := by
  induction pre with
  | nil => rfl
  | cons p ps ih => simp [stripPrefixChars, ih]

lemma hexVal_hexDigit (m : Nat) (h : m < 16) : hexVal (hexDigit m) = some m := by
  interval_cases m <;> decide

lemma readHex4_hex4 (n : Nat) (h : n < 65536) (z : List Char) :
    readHex4 (hex4 n ++ z) = some (n, z) := by
  show readHex4 (hexDigit (n / 4096 % 16) :: hexDigit (n / 256 % 16) ::
    hexDigit (n / 16 % 16) :: hexDigit (n % 16) :: z) = _
  unfold readHex4
  simp only []
  rw [hexVal_hexDigit _ (Nat.mod_lt _ (by norm_num)),
      hexVal_hexDigit _ (Nat.mod_lt _ (by norm_num)),
      hexVal_hexDigit _ (Nat.mod_lt _ (by norm_num)),
      hexVal_hexDigit _ (Nat.mod_lt _ (by norm_num))]
  simp only []
  rw [show n / 4096 % 16 * 4096 + n / 256 % 16 * 256 + n / 16 % 16 * 16 +
    n % 16 = n from by omega]

lemma jsonUnescapeStep_u (n : Nat) (h16 : n < 65536)
    (hs : n < 55296 ∨ 57343 < n) (z : List Char) :
    jsonUnescapeStep ((Char.ofNat 117 :: hex4 n) ++ z) =
      some (Char.ofNat n, z) := by
  show jsonUnescapeStep (Char.ofNat 117 :: (hex4 n ++ z)) = _
  unfold jsonUnescapeStep
  simp only []
  rw [if_neg (by decide), if_neg (by decide), if_neg (by decide),
      if_neg (by decide), if_neg (by decide), if_neg (by decide),
      if_pos trivial, readHex4_hex4 n h16 z]
  simp only []
  rw [if_neg (by omega), if_neg (by omega)]

lemma jsonUnescapeStep_u_pair (n : Nat) (h1 : 65536 ≤ n) (h2 : n < 1114112)
    (z : List Char) :
    jsonUnescapeStep ((Char.ofNat 117 ::
      (hex4 (55296 + (n - 65536) / 1024) ++
        (bslash :: Char.ofNat 117 :: hex4 (56320 + (n - 65536) % 1024)))) ++
      z) = some (Char.ofNat n, z) := by
  show jsonUnescapeStep (Char.ofNat 117 ::
    (hex4 (55296 + (n - 65536) / 1024) ++
      (bslash :: Char.ofNat 117 :: (hex4 (56320 + (n - 65536) % 1024) ++
        z)))) = _
  unfold jsonUnescapeStep
  simp only []
  rw [if_neg (by decide), if_neg (by decide), if_neg (by decide),
      if_neg (by decide), if_neg (by decide), if_neg (by decide),
      if_pos trivial, readHex4_hex4 _ (by omega) _]
  simp only []
  rw [if_pos (by omega)]
  try simp only []
  first
  | rw [if_pos trivial]
  | rw [if_pos ⟨trivial, trivial⟩]
  | rw [if_pos ⟨rfl, rfl⟩]
  rw [readHex4_hex4 _ (by omega) _]
  try simp only []
  rw [if_pos (by omega)]
  rw [show 65536 + (55296 + (n - 65536) / 1024 - 55296) * 1024 +
    (56320 + (n - 65536) % 1024 - 56320) = n from by omega]

lemma jsonEscapeChar_spec (c : Char) :
    (jsonEscapeChar c = [c] ∧ c ≠ dquote ∧ c ≠ bslash ∧ ¬ c.toNat < 32) ∨
    (∃ code, jsonEscapeChar c = bslash :: code ∧
      ∀ z, jsonUnescapeStep (code ++ z) = some (c, z)) := by
  unfold jsonEscapeChar
  by_cases h1 : c = dquote
  · subst h1
    rw [if_pos rfl]
    refine Or.inr ⟨[dquote], rfl, fun z => ?_⟩
    rw [List.singleton_append]
    unfold jsonUnescapeStep
    try simp only []
    first
    | rw [if_pos (Or.inl trivial)]
    | rw [if_pos (Or.inl rfl)]
    | rw [if_pos trivial]
  rw [if_neg h1]
  by_cases h2 : c = bslash
  · subst h2
    rw [if_pos rfl]
    refine Or.inr ⟨[bslash], rfl, fun z => ?_⟩
    rw [List.singleton_append]
    unfold jsonUnescapeStep
    try simp only []
    first
    | rw [if_pos (Or.inr (Or.inl trivial))]
    | rw [if_pos (Or.inr (Or.inl rfl))]
    | rw [if_pos trivial]
  rw [if_neg h2]
  by_cases h3 : c = Char.ofNat 10
  · subst h3
    rw [if_pos rfl]
    refine Or.inr ⟨[Char.ofNat 110], rfl, fun z => ?_⟩
    rw [List.singleton_append]
    unfold jsonUnescapeStep
    try simp only []
    rw [if_neg (by decide)]
    first
    | rw [if_pos trivial]
    | rw [if_pos rfl]
  rw [if_neg h3]
  by_cases h4 : c = Char.ofNat 9
  · subst h4
    rw [if_pos rfl]
    refine Or.inr ⟨[Char.ofNat 116], rfl, fun z => ?_⟩
    rw [List.singleton_append]
    unfold jsonUnescapeStep
    try simp only []
    rw [if_neg (by decide), if_neg (by decide)]
    first
    | rw [if_pos trivial]
    | rw [if_pos rfl]
  rw [if_neg h4]
  by_cases h5 : c = Char.ofNat 13
  · subst h5
    rw [if_pos rfl]
    refine Or.inr ⟨[Char.ofNat 114], rfl, fun z => ?_⟩
    rw [List.singleton_append]
    unfold jsonUnescapeStep
    try simp only []
    rw [if_neg (by decide), if_neg (by decide), if_neg (by decide)]
    first
    | rw [if_pos trivial]
    | rw [if_pos rfl]
  rw [if_neg h5]
  by_cases h6 : c = Char.ofNat 8
  · subst h6
    rw [if_pos rfl]
    refine Or.inr ⟨[Char.ofNat 98], rfl, fun z => ?_⟩
    rw [List.singleton_append]
    unfold jsonUnescapeStep
    try simp only []
    rw [if_neg (by decide), if_neg (by decide), if_neg (by decide),
        if_neg (by decide)]
    first
    | rw [if_pos trivial]
    | rw [if_pos rfl]
  rw [if_neg h6]
  by_cases h7 : c = Char.ofNat 12
  · subst h7
    rw [if_pos rfl]
    refine Or.inr ⟨[Char.ofNat 102], rfl, fun z => ?_⟩
    rw [List.singleton_append]
    unfold jsonUnescapeStep
    try simp only []
    rw [if_neg (by decide), if_neg (by decide), if_neg (by decide),
        if_neg (by decide), if_neg (by decide)]
    first
    | rw [if_pos trivial]
    | rw [if_pos rfl]
  rw [if_neg h7]
  by_cases h8 : c.toNat < 32
  · rw [if_pos h8]
    refine Or.inr ⟨Char.ofNat 117 :: hex4 c.toNat, rfl, fun z => ?_⟩
    have h := jsonUnescapeStep_u c.toNat (by omega) (Or.inl (by omega)) z
    rwa [Char.ofNat_toNat] at h
  rw [if_neg h8]
  by_cases h9 : c.toNat < 127
  · rw [if_pos h9]
    exact Or.inl ⟨rfl, h1, h2, h8⟩
  rw [if_neg h9]
  have hv := c.valid
  unfold UInt32.isValidChar Nat.isValidChar at hv
  rw [show c.val.toNat = c.toNat from rfl] at hv
  by_cases h10 : c.toNat < 65536
  · rw [if_pos h10]
    refine Or.inr ⟨Char.ofNat 117 :: hex4 c.toNat, rfl, fun z => ?_⟩
    have h := jsonUnescapeStep_u c.toNat h10 (by omega) z
    rwa [Char.ofNat_toNat] at h
  rw [if_neg h10]
  refine Or.inr ⟨Char.ofNat 117 ::
    (hex4 (55296 + (c.toNat - 65536) / 1024) ++
      (bslash :: Char.ofNat 117 :: hex4 (56320 + (c.toNat - 65536) % 1024))),
    rfl, fun z => ?_⟩
  have h := jsonUnescapeStep_u_pair c.toNat (by omega) (by omega) z
  rwa [Char.ofNat_toNat] at h

lemma jsonEscape_length (l : List Char) : l.length ≤ (jsonEscape l).length := by
  induction l with
  | nil => simp [jsonEscape]
  | cons a t ih =>
      rw [jsonEscape, List.length_append, List.length_cons]
      have h1 : 1 ≤ (jsonEscapeChar a).length := by
        rcases jsonEscapeChar_spec a with ⟨he, _⟩ | ⟨code, he, _⟩ <;>
          rw [he] <;> simp
      omega

lemma parseJsonStringF_escape (l : List Char) :
    ∀ (fuel : Nat) (rest : List Char), l.length < fuel →
      parseJsonStringF fuel (jsonEscape l ++ (dquote :: rest)) =
        some (l, rest) := by
  induction l with
  | nil =>
      intro fuel rest hf
      cases fuel with
      | zero => omega
      | succ f =>
          show parseJsonStringF (f + 1) (dquote :: rest) = _
          unfold parseJsonStringF
          try simp only []
          first
          | rw [if_pos trivial]
          | rw [if_pos rfl]
  | cons a t ih =>
      intro fuel rest hf
      cases fuel with
      | zero => omega
      | succ f =>
          have hft : t.length < f := by
            simp only [List.length_cons] at hf
            omega
          rcases jsonEscapeChar_spec a with ⟨he, hd, hb, hc⟩ |
            ⟨code, he, hstep⟩
          · have hsh : jsonEscape (a :: t) ++ (dquote :: rest) =
                a :: (jsonEscape t ++ (dquote :: rest)) := by
              show (jsonEscapeChar a ++ jsonEscape t) ++ (dquote :: rest) = _
              rw [he]
              simp [List.append_assoc]
            rw [hsh]
            unfold parseJsonStringF
            try simp only []
            rw [if_neg hd, if_neg hb, if_neg hc, ih f rest hft]
            rfl
          · have hsh : jsonEscape (a :: t) ++ (dquote :: rest) =
                bslash :: (code ++ (jsonEscape t ++ (dquote :: rest))) := by
              show (jsonEscapeChar a ++ jsonEscape t) ++ (dquote :: rest) = _
              rw [he]
              simp [List.append_assoc]
            rw [hsh]
            unfold parseJsonStringF
            try simp only []
            rw [if_neg (by decide)]
            first
            | rw [if_pos trivial]
            | rw [if_pos rfl]
            rw [hstep]
            try simp only []
            rw [ih f rest hft]
            rfl

lemma parseJsonString_escape (l rest : List Char) :
    parseJsonString (jsonEscape l ++ (dquote :: rest)) = some (l, rest) := by
  have hlen : l.length < (jsonEscape l ++ (dquote :: rest)).length := by
    rw [List.length_append, List.length_cons]
    have := jsonEscape_length l
    omega
  exact parseJsonStringF_escape l _ rest hlen

lemma dumps_head (s : String) :
    (jsonDumpsIdentifier s).toList.head? = some (Char.ofNat 123) := rfl

lemma dumps_getLast (s : String) :
    (jsonDumpsIdentifier s).toList.getLast? = some (Char.ofNat 125) := by
  rw [jsonDumpsIdentifier_toList]
  rw [show ("\"\x7d".toList : List Char) = ["\"".toList.headD dquote] ++
    [Char.ofNat 125] from by decide]
  rw [← List.append_assoc]
  exact List.getLast?_concat _

lemma dumps_head_ne (s : String) :
    ∀ x, (jsonDumpsIdentifier s).toList.head? = some x → x ≠ squote := by
  intro x hx
  rw [dumps_head] at hx
  obtain rfl := Option.some.inj hx
  decide

lemma dumps_getLast_ne (s : String) :
    ∀ x, (jsonDumpsIdentifier s).toList.getLast? = some x → x ≠ squote := by
  intro x hx
  rw [dumps_getLast] at hx
  obtain rfl := Option.some.inj hx
  decide

lemma parse_dumps (s : String) :
    parseIdentifierObj (jsonDumpsIdentifier s).toList = some s := by
  unfold parseIdentifierObj
  rw [jsonDumpsIdentifier_toList, List.append_assoc, stripPrefixChars_append]
  simp only []
  rw [show ("\"\x7d".toList : List Char) = dquote :: "\x7d".toList from by
    decide]
  rw [parseJsonString_escape]
  simp only []
  rw [if_pos trivial]
  rfl

lemma decode_kwargsLiteral (s : String) :
    decodeKwargsVal (PyVal.str (kwargsLiteral s)) = some s := by
  show parseIdentifierObj (pyStripChar squote (kwargsLiteral s).toList) = some s
  rw [kwargsLiteral_toList,
    pyStripChar_wrap squote _ (dumps_head_ne s) (dumps_getLast_ne s)]
  exact parse_dumps s

lemma decode_dumps (s : String) :
    decodeKwargsVal (PyVal.str (jsonDumpsIdentifier s)) = some s := by
  show parseIdentifierObj (pyStripChar squote (jsonDumpsIdentifier s).toList) =
    some s
  rw [pyStripChar_of_ne squote _ (dumps_head_ne s) (dumps_getLast_ne s)]
  exact parse_dumps s

/-- The identifier `O'Brien` — a lone single quote inside a search term. -/
def obrien : String :=
  String.mk [Char.ofNat 79, squote, Char.ofNat 66, Char.ofNat 114,
    Char.ofNat 105, Char.ofNat 101, Char.ofNat 110]

/-- The identifier `a''b` — two adjacent single quotes, which SQLite's
string-literal escaping reads as one escaped quote. -/
def aqqb : String :=
  String.mk [Char.ofNat 97, squote, squote, Char.ofNat 98]

/-- The identifier `a'b` — what the store actually remembers after the
commit of `a''b`. -/
def aqb : String :=
  String.mk [Char.ofNat 97, squote, Char.ofNat 98]

/-- C6 counterexample, both failure modes of a single quote inside an
accepted identifier.  `O'Brien`: the lone quote terminates the interpolated
SQL string literal early, `execute` raises, `handle_first` aborts and
neither the store nor the cache ever receives the serialized query
parameters.  `a''b`: the commit succeeds — SQLite reads the doubled quote
as an escaped single quote — but the store remembers the JSON text of
`a'b`, so the value read back decodes to a different identifier than the
one the user searched for.  In both cases the write/read/derive round trip
fails to reproduce the identifier. -/
theorem kwargs_roundtrip_fails_on_apostrophe :
    (obrien.length ≠ 0 ∧
    (handle_first true true "anime:(-)?[0-9]+" obrien 1 3 10 11 0 dbEmpty).ok =
      false ∧
    storeCol (handle_first true true "anime:(-)?[0-9]+" obrien 1 3 10 11 0
      dbEmpty).db 0 Col.kwargs = some SqlVal.null ∧
    cacheCol (handle_first true true "anime:(-)?[0-9]+" obrien 1 3 10 11 0
      dbEmpty).db 0 Col.kwargs = some PyVal.none) ∧
    (aqqb.length ≠ 0 ∧
    (handle_first true true "anime:(-)?[0-9]+" aqqb 1 3 10 11 0 dbEmpty).ok =
      true ∧
    storeCol (handle_first true true "anime:(-)?[0-9]+" aqqb 1 3 10 11 0
      dbEmpty).db 0 Col.kwargs =
      some (SqlVal.text (jsonDumpsIdentifier aqb)) ∧
    decodeKwargsVal (sqlToPy (SqlVal.text (jsonDumpsIdentifier aqb))) =
      some aqb ∧
    aqb ≠ aqqb) := by
  refine ⟨⟨by decide, by decide, rfl, rfl⟩,
    ⟨by decide, by decide, by decide, by decide, by decide⟩⟩

/-- C6 (amended): for every identifier that contains no single quote —
arbitrary Unicode, since `json.dumps` escapes to plain ASCII — the
serialization round trip is lossless: the commit stores the JSON text (the
interpolated statement is well formed), decoding the cached value (the
quote-wrapped literal, as a navigation click in the same process reads it)
recovers exactly the identifier, decoding the value read back from the
store after a restart recovers it as well, and a navigation click against
such a committed session issues its content fetch with exactly that
identifier and the clamped target page — only the page differs from the
initial fetch.  An identifier containing a single quote breaks the round
trip in one of two ways (see the counterexample): a lone quote splits the
interpolated SQL literal and the commit raises, while a doubled quote is
collapsed by SQLite's escape rule so the store remembers a different
identifier. -/
theorem kwargs_roundtrip_lossless_without_apostrophe (identifier : String)
    (hq : squote ∉ identifier.toList) :
    sqlEval (PyVal.str (kwargsLiteral identifier)) =
      some (SqlVal.text (jsonDumpsIdentifier identifier)) ∧
    decodeKwargsVal (PyVal.str (kwargsLiteral identifier)) = some identifier ∧
    decodeKwargsVal (sqlToPy (SqlVal.text (jsonDumpsIdentifier identifier))) =
      some identifier ∧
    (∀ (storeOk delOk : Bool) (pattern : String) (step mid : Int) (uid : Nat)
      (db : DB) (cr : CacheRow) (c l : Int),
      db.cache uid = some cr → cr Col.current_page = PyVal.int c →
      cr Col.last_page = PyVal.int l → c ≠ 0 →
      cr Col.kwargs = PyVal.str (kwargsLiteral identifier) →
      clamp (c + step) 1 l ≠ c →
      Effect.fetch identifier (clamp (c + step) 1 l) ∈
        (handle_next storeOk delOk pattern step mid uid db).effects) := by
  refine ⟨sqlEval_kwargsLiteral identifier hq, decode_kwargsLiteral identifier,
    decode_dumps identifier, ?_⟩
  intro storeOk delOk pattern step mid uid db cr c l hc hcur hlast hc0 hkw hne
  have ht2 : (PyVal.int c).truthy = true := truthy_int_of_ne rfl hc0
  simp only [handle_next]
  rw [get_user_data_of_cached hc]
  simp only [hcur, hlast, ht2, Bool.true_eq_false, if_false, PyVal.toIntD]
  rw [if_neg hne, hkw, decode_kwargsLiteral identifier]
  simp only []
  by_cases hok : (generate_markup storeOk delOk pattern (clamp (c + step) 1 l)
      l uid db).ok = true
  · rw [if_pos hok]
    simp
  · rw [if_neg hok]
    simp

theorem kwargs_roundtrip_lossless_without_apostrophe_witness :
    squote ∉ ("naruto" : String).toList ∧
    decodeKwargsVal (PyVal.str (kwargsLiteral "naruto")) = some "naruto" ∧
    decodeKwargsVal (sqlToPy (SqlVal.text (jsonDumpsIdentifier "naruto"))) =
      some "naruto" :=
  ⟨by decide,
   (kwargs_roundtrip_lossless_without_apostrophe "naruto" (by decide)).2.1,
   (kwargs_roundtrip_lossless_without_apostrophe "naruto" (by decide)).2.2.1⟩

lemma ensureCache_effects_cases (uid : Nat) (db : DB) :
    (ensureCache uid db).2 = [] ∨
    (ensureCache uid db).2 =
      [Effect.storeInsertDefault uid, Effect.cachePopulate uid] := by
  rcases h : db.cache uid with _ | cr
  · rw [ensureCache_of_miss h]
    exact Or.inr rfl
  · rw [ensureCache_of_cached h]
    exact Or.inl rfl

lemma set_user_data_effects_cases (storeOk : Bool) (uid : Nat)
    (changes : List (Col × PyVal)) (db : DB) :
    (set_user_data storeOk uid changes db).effects = (ensureCache uid db).2 ∨
    (set_user_data storeOk uid changes db).effects = (ensureCache uid db).2 ++
      [Effect.storeExecute uid, Effect.storeCommit, Effect.cacheWrite uid] := by
  rcases hr : renderChanges changes with _ | sv
  · rw [set_user_data_noRender _ _ _ _ hr]
    exact Or.inl rfl
  · cases storeOk with
    | false =>
        rw [set_user_data_falseOk]
        exact Or.inl rfl
    | true =>
        rw [set_user_data_true_some _ _ _ _ hr]
        exact Or.inr rfl

lemma sendMessage_not_mem_set_user_data (storeOk : Bool) (uid : Nat)
    (changes : List (Col × PyVal)) (db : DB) (kb : List (List (String × String))) :
    Effect.sendMessage kb ∉ (set_user_data storeOk uid changes db).effects := by
  rcases set_user_data_effects_cases storeOk uid changes db with h | h <;>
    rw [h] <;> rcases ensureCache_effects_cases uid db with h2 | h2 <;>
    rw [h2] <;> simp

lemma sendMessage_not_mem_generate_markup (storeOk delOk : Bool)
    (pattern : String) (cp lp : Int) (uid : Nat) (db : DB)
    (kb : List (List (String × String))) :
    Effect.sendMessage kb ∉
      (generate_markup storeOk delOk pattern cp lp uid db).effects := by
  unfold generate_markup get_user_data
  by_cases htr : ((((ensureCache uid db).1.cache uid).getD
      (fun _ => PyVal.none)) Col.message_id).truthy = true
  · rw [if_pos htr]
    by_cases hok : (set_user_data storeOk uid
        [(Col.message_id, PyVal.str "NULL")] (ensureCache uid db).1).ok = true
    · rw [if_pos hok]
      intro hmem
      rcases List.mem_append.mp hmem with hm | hm
      · rcases List.mem_append.mp hm with hm2 | hm2
        · rcases ensureCache_effects_cases uid db with h2 | h2 <;>
            rw [h2] at hm2 <;> simp at hm2
        · simp at hm2
      · exact sendMessage_not_mem_set_user_data _ _ _ _ _ hm
    · rw [if_neg hok]
      intro hmem
      rcases List.mem_append.mp hmem with hm | hm
      · rcases List.mem_append.mp hm with hm2 | hm2
        · rcases ensureCache_effects_cases uid db with h2 | h2 <;>
            rw [h2] at hm2 <;> simp at hm2
        · simp at hm2
      · exact sendMessage_not_mem_set_user_data _ _ _ _ _ hm
  · rw [if_neg htr]
    intro hmem
    rcases ensureCache_effects_cases uid db with h2 | h2 <;>
      rw [h2] at hmem <;> simp at hmem

lemma generate_markup_true_ok (delOk : Bool) (pattern : String) (cp lp : Int)
    (uid : Nat) (db : DB) :
    (generate_markup true delOk pattern cp lp uid db).ok = true := by
  unfold generate_markup get_user_data
  by_cases htr : ((((ensureCache uid db).1.cache uid).getD
      (fun _ => PyVal.none)) Col.message_id).truthy = true
  · rw [if_pos htr]
    have hok : (set_user_data true uid [(Col.message_id, PyVal.str "NULL")]
        (ensureCache uid db).1).ok = true := by
      rw [set_user_data_true_some _ _ _ _ renderChanges_clear]
    rw [if_pos hok]
  · rw [if_neg htr]

lemma generate_markup_markup_onepage (storeOk delOk : Bool) (pattern : String)
    (cp : Int) (uid : Nat) (db : DB) :
    (generate_markup storeOk delOk pattern cp 1 uid db).markup = [] := by
  unfold generate_markup get_user_data
  by_cases htr : ((((ensureCache uid db).1.cache uid).getD
      (fun _ => PyVal.none)) Col.message_id).truthy = true
  · rw [if_pos htr]
    by_cases hok : (set_user_data storeOk uid
        [(Col.message_id, PyVal.str "NULL")] (ensureCache uid db).1).ok = true
    · rw [if_pos hok]
      simp [mkKeyboard]
    · rw [if_neg hok]
  · rw [if_neg htr]
    simp [mkKeyboard]

lemma pyIsNumeric_spec {s : String} (h : pyIsNumeric s = true) :
    s.length ≠ 0 ∧ ∀ c ∈ s.toList, c.isDigit = true := by
  unfold pyIsNumeric at h
  rw [Bool.and_eq_true] at h
  obtain ⟨h1, h2⟩ := h
  constructor
  · exact bne_iff_ne.mp h1
  · exact List.all_eq_true.mp h2

lemma pyIsNumeric_no_squote {s : String} (h : pyIsNumeric s = true) :
    squote ∉ s.toList := by
  intro hm
  have := (pyIsNumeric_spec h).2 squote hm
  exact absurd this (by decide)

lemma clamp_onepage (step : Int) : clamp (1 + step) 1 1 = 1 := by
  unfold clamp
  rw [max_def, min_def]
  split_ifs <;> omega

/-- C8: an initial query with a purely numeric identifier commits the
degenerate one-page session (`current_page = 1`, `last_page = 1`, both in
the store and in the cache), the only message sent carries an empty inline
keyboard (navigation controls suppressed), and every subsequent navigation
click against that session — any step, any sign, any sequence — is a
complete no-op leaving the state untouched with no effects. -/
theorem numeric_identifier_degenerate_session (delOk : Bool)
    (pattern identifier : String) (apiCur apiLast srcMsgId newMsgId : Int)
    (uid : Nat) (db : DB) (hnum : pyIsNumeric identifier = true) :
    (handle_first true delOk pattern identifier apiCur apiLast srcMsgId
      newMsgId uid db).ok = true ∧
    (∃ sr, (handle_first true delOk pattern identifier apiCur apiLast srcMsgId
      newMsgId uid db).db.store uid = some sr ∧
      sr Col.current_page = SqlVal.int 1 ∧ sr Col.last_page = SqlVal.int 1) ∧
    (∀ kb, Effect.sendMessage kb ∈ (handle_first true delOk pattern identifier
      apiCur apiLast srcMsgId newMsgId uid db).effects → kb = []) ∧
    (∀ step mid : Int, handle_next true delOk pattern step mid uid
      (handle_first true delOk pattern identifier apiCur apiLast srcMsgId
        newMsgId uid db).db =
      ⟨(handle_first true delOk pattern identifier apiCur apiLast srcMsgId
        newMsgId uid db).db, [], true⟩) ∧
    (∀ clicks : List (Int × Int), navigate true delOk pattern uid clicks
      (handle_first true delOk pattern identifier apiCur apiLast srcMsgId
        newMsgId uid db).db =
      (handle_first true delOk pattern identifier apiCur apiLast srcMsgId
        newMsgId uid db).db) := by
  have hne : identifier.length ≠ 0 := (pyIsNumeric_spec hnum).1
  have hq : squote ∉ identifier.toList := pyIsNumeric_no_squote hnum
  have hsk : sqlEvalStr (kwargsLiteral identifier).toList =
      some (SqlVal.text (jsonDumpsIdentifier identifier)) :=
    sqlEval_kwargsLiteral identifier hq
  have hmok := generate_markup_true_ok delOk pattern 1 1 uid db
  have hrc : renderChanges [(Col.message_id, PyVal.int newMsgId),
      (Col.reply_id, PyVal.int srcMsgId), (Col.current_page, PyVal.int 1),
      (Col.last_page, PyVal.int 1),
      (Col.kwargs, PyVal.str (kwargsLiteral identifier))] =
      some [(Col.message_id, SqlVal.int newMsgId),
        (Col.reply_id, SqlVal.int srcMsgId),
        (Col.current_page, SqlVal.int 1), (Col.last_page, SqlVal.int 1),
        (Col.kwargs, SqlVal.text (jsonDumpsIdentifier identifier))] := by
    rw [renderChanges_first, hsk]
    rfl
  simp only [handle_first]
  rw [if_neg hne, if_pos hnum, if_pos hnum, if_pos hmok,
    set_user_data_true_some _ _ _ _ hrc]
  refine ⟨rfl, ⟨_, updStore_store_self _ _ _, by simp [applyRow],
    by simp [applyRow]⟩, ?_, ?_, ?_⟩
  · intro kb hm
    have hnm := sendMessage_not_mem_generate_markup true delOk pattern 1 1 uid
      db kb
    rcases ensureCache_effects_cases uid
        (generate_markup true delOk pattern 1 1 uid db).db with h2 | h2 <;>
      rw [h2] at hm <;> simp [hnm] at hm <;>
      rw [generate_markup_markup_onepage true delOk pattern 1 uid db] at hm <;>
      exact hm
  · intro step mid
    exact handle_next_noop true delOk pattern step mid uid _ _ 1 1
      (updCache_cache_self _ _ _) (by simp [applyRow]) (by simp [applyRow])
      (by decide) (clamp_onepage step)
  · intro clicks
    induction clicks with
    | nil => rfl
    | cons cl rest ih =>
        show navigate true delOk pattern uid rest
          (handle_next true delOk pattern cl.1 cl.2 uid _).db = _
        rw [handle_next_noop true delOk pattern cl.1 cl.2 uid _ _ 1 1
          (updCache_cache_self _ _ _) (by simp [applyRow]) (by simp [applyRow])
          (by decide) (clamp_onepage cl.1)]
        exact ih

theorem numeric_identifier_degenerate_session_witness :
    pyIsNumeric "123" = true ∧
    (handle_first true true "anime:(-)?[0-9]+" "123" 1 3 10 11 0 dbEmpty).ok =
      true ∧
    (∀ step mid : Int, handle_next true true "anime:(-)?[0-9]+" step mid 0
      (handle_first true true "anime:(-)?[0-9]+" "123" 1 3 10 11 0
        dbEmpty).db =
      ⟨(handle_first true true "anime:(-)?[0-9]+" "123" 1 3 10 11 0
        dbEmpty).db, [], true⟩) :=
  ⟨by decide,
   (numeric_identifier_degenerate_session true "anime:(-)?[0-9]+" "123" 1 3 10
     11 0 dbEmpty (by decide)).1,
   (numeric_identifier_degenerate_session true "anime:(-)?[0-9]+" "123" 1 3 10
     11 0 dbEmpty (by decide)).2.2.2.1⟩
